import Mathlib

/-!
Verification model of `running.py` (legacy-conversion-flow).

The development shallowly embeds the script's core: the scaffold-manifest
coercion logic in `main`, the materializer `create_scaffolding_structure`,
and the workflow branching of `main` (fast resume / full resume / new
project), over an explicit filesystem state and an oracle for the remote
service calls.
-/

/-- POSIX-style path: a list of segments, absolute from the filesystem root. -/
abbrev FsPath := List String

/-- Split a character list on the slash character, accumulating the current
segment in reverse (model of POSIX path splitting used by `os.path`). -/
def splitSegsAux : List Char → List Char → List (List Char)
  | acc, [] => [acc.reverse]
  | acc, c :: rest =>
    if c = '/' then acc.reverse :: splitSegsAux [] rest
    else splitSegsAux (c :: acc) rest

/-- Split a path string into its slash-separated segments. -/
def splitPath (s : String) : List String :=
  (splitSegsAux [] s.data).map (fun l => String.mk l)

/-- Join segments with slashes (inverse of `splitPath` on slash-free segments). -/
def joinPath : List String → String
  | [] => ""
  | [s] => s
  | s :: rest => s ++ "/" ++ joinPath rest

/-- `b.startswith("/")` — the absoluteness test of `posixpath.join`. -/
def isAbs (s : String) : Bool := s.data.head? = some '/'

/-- `os.path.join(a, b)` for two components on POSIX: an absolute second
component discards the first. -/
def osJoin (a b : String) : String := if isAbs b then b else a ++ "/" ++ b

/-- `os.path.dirname`: everything before the final slash. -/
def osDirname (s : String) : String := joinPath ((splitPath s).dropLast)

/-- Resolve raw segments against a starting directory: empty and `"."`
segments are skipped, `".."` pops one level (staying at the root if already
there), as the OS does when the path reaches a syscall. -/
def resolveSegs : FsPath → List String → FsPath
  | acc, [] => acc
  | acc, s :: rest =>
    if s = "" ∨ s = "." then resolveSegs acc rest
    else if s = ".." then resolveSegs acc.dropLast rest
    else resolveSegs (acc ++ [s]) rest

/-- Resolve a path string to an absolute path, relative paths starting
from `cwd`. -/
def resolveStr (cwd : FsPath) (s : String) : FsPath :=
  if isAbs s then resolveSegs [] (splitPath s) else resolveSegs cwd (splitPath s)

/-- The nonempty prefixes of a path, shortest first (the chain of
directories `os.makedirs` walks), ending with the path itself. -/
def ancestorsOf (p : FsPath) : List FsPath :=
  (List.range p.length).map (fun i => p.take (i + 1))

/-- A filesystem entry: a directory, or a file with its text content. -/
inductive FsNode where
  | dir : FsNode
  | file : String → FsNode
deriving DecidableEq, Repr

/-- Filesystem state: an association list from absolute paths to entries. -/
abbrev FsMap := List (FsPath × FsNode)

/-- Look up the entry at a path. -/
def lookupFS (fs : FsMap) (p : FsPath) : Option FsNode :=
  (fs.find? (fun e => e.1 == p)).map (·.2)

/-- Create or overwrite the entry at a path. -/
def setFS (fs : FsMap) (p : FsPath) (n : FsNode) : FsMap :=
  fs.filter (fun e => !(e.1 == p)) ++ [(p, n)]

/-- `shutil.rmtree`: drop a path and everything below it. -/
def rmtreeFS (fs : FsMap) (p : FsPath) : FsMap :=
  fs.filter (fun e => !(p.isPrefixOf e.1))

/-- A filesystem step that fails carries the Python error message together
with the state at the moment of failure (writes already made persist). -/
abbrev FsM (α : Type) := Except (String × FsMap) α

/-- Ensure one directory level exists (a single step of `os.makedirs`):
missing → create, directory → no-op, file → `NotADirectoryError`. -/
def ensureDir (fs : FsMap) (q : FsPath) : FsM FsMap :=
  match lookupFS fs q with
  | none => .ok (setFS fs q .dir)
  | some .dir => .ok fs
  | some (.file _) => .error ("NotADirectoryError: " ++ joinPath q, fs)

/-- `os.makedirs(p, exist_ok)`: create every missing ancestor, then the
path itself; with `exist_ok = false` an existing directory is a
`FileExistsError`, a file always is. -/
def mkdirp (fs : FsMap) (p : FsPath) (existOk : Bool) : FsM FsMap :=
  if p = [] then .ok fs
  else do
    let fs' ← (ancestorsOf p).dropLast.foldlM ensureDir fs
    match lookupFS fs' p with
    | none => .ok (setFS fs' p .dir)
    | some .dir =>
      if existOk then .ok fs' else .error ("FileExistsError: " ++ joinPath p, fs')
    | some (.file _) => .error ("FileExistsError: " ++ joinPath p, fs')

/-- `open(p, "w")`: truncate/create the file at `p`. Fails on a directory,
on a missing parent, or on a parent that is a file. -/
def writeNewFile (fs : FsMap) (p : FsPath) (content : String) : FsM FsMap :=
  if p = [] then .error ("IsADirectoryError: /", fs)
  else
    match lookupFS fs p with
    | some .dir => .error ("IsADirectoryError: " ++ joinPath p, fs)
    | _ =>
      if p.dropLast = [] then .ok (setFS fs p (.file content))
      else
        match lookupFS fs p.dropLast with
        | some .dir => .ok (setFS fs p (.file content))
        | some (.file _) => .error ("NotADirectoryError: " ++ joinPath p, fs)
        | none => .error ("FileNotFoundError: " ++ joinPath p, fs)

/-- `f.write(extra)` on a file already opened for writing: append to its
content. -/
def appendFile (fs : FsMap) (p : FsPath) (extra : String) : FsM FsMap :=
  match lookupFS fs p with
  | some (.file c) => .ok (setFS fs p (.file (c ++ extra)))
  | _ => .error ("ValueError: I/O operation on closed file", fs)

/-- A Python value, as produced by `json.loads` and handled by the script:
`None`, booleans, integers, strings, lists and string-keyed dicts. -/
inductive PyVal where
  | pynull : PyVal
  | pybool : Bool → PyVal
  | num : Int → PyVal
  | str : String → PyVal
  | list : List PyVal → PyVal
  | dict : List (String × PyVal) → PyVal

/-- Python `v == "lit"` for a string literal: only equal strings compare
equal, every other type is simply unequal (no coercion, no error). -/
def pyIsStr (v : PyVal) (lit : String) : Bool :=
  match v with
  | .str t => t == lit
  | _ => false

/-- Python `v[k]` for a string key: a dict lookup (`KeyError` when the key
is absent), a `TypeError` on any non-dict value. -/
def pySubscr (v : PyVal) (k : String) : Except String PyVal :=
  match v with
  | .dict kvs =>
    match kvs.find? (fun kv => kv.1 == k) with
    | some kv => .ok kv.2
    | none => .error ("KeyError: " ++ k)
  | _ => .error ("TypeError: value is not subscriptable with " ++ k)

/-- `os.path.join` insists its components are `str`; anything else is a
`TypeError`. -/
def asPathArg (v : PyVal) : Except String String :=
  match v with
  | .str s => .ok s
  | _ => .error "TypeError: join argument must be str"

/-- Python iteration `for item in v`: list elements, dict keys, or the
characters of a string; other values are not iterable. -/
def pyIter (v : PyVal) : Except String (List PyVal) :=
  match v with
  | .list xs => .ok xs
  | .dict kvs => .ok (kvs.map (fun kv => PyVal.str kv.1))
  | .str s => .ok (s.data.map (fun c => PyVal.str (String.singleton c)))
  | _ => .error "TypeError: object is not iterable"

/-- Python `len(v)` for containers and strings; `TypeError` otherwise. -/
def pyLen (v : PyVal) : Except String Nat :=
  match v with
  | .list xs => .ok xs.length
  | .dict kvs => .ok kvs.length
  | .str s => .ok s.length
  | _ => .error "TypeError: object has no len"

/-- Surround a string with single quotes (Python `repr` of a `str`). -/
def quoted (s : String) : String :=
  String.singleton '\'' ++ s ++ String.singleton '\''

mutual

/-- Python `str(v)` as used by f-string interpolation. -/
def pyStrOf : PyVal → String
  | .pynull => "None"
  | .pybool true => "True"
  | .pybool false => "False"
  | .num n => toString n
  | .str s => s
  | .list xs => "[" ++ pyReprSeq xs ++ "]"
  | .dict kvs => "\x7b" ++ pyReprKvs kvs ++ "\x7d"

/-- Python `repr(v)`, used for elements nested inside containers. -/
def pyReprOf : PyVal → String
  | .str s => quoted s
  | .pynull => "None"
  | .pybool true => "True"
  | .pybool false => "False"
  | .num n => toString n
  | .list xs => "[" ++ pyReprSeq xs ++ "]"
  | .dict kvs => "\x7b" ++ pyReprKvs kvs ++ "\x7d"

/-- Comma-separated reprs of list elements. -/
def pyReprSeq : List PyVal → String
  | [] => ""
  | [x] => pyReprOf x
  | x :: y :: xs => pyReprOf x ++ ", " ++ pyReprSeq (y :: xs)

/-- Comma-separated `key: value` reprs of dict entries. -/
def pyReprKvs : List (String × PyVal) → String
  | [] => ""
  | [(k, v)] => quoted k ++ ": " ++ pyReprOf v
  | (k, v) :: e :: xs => quoted k ++ ": " ++ pyReprOf v ++ ", " ++ pyReprKvs (e :: xs)

end

/-- Drop leading JSON whitespace. -/
def dropWs : List Char → List Char
  | [] => []
  | c :: rest =>
    if c = ' ' ∨ c = '\n' ∨ c = '\t' ∨ c = '\r' then dropWs rest else c :: rest

/-- Parse the remainder of a JSON string literal (after the opening quote),
handling the common escapes. -/
def jstr : List Char → List Char → Except String (String × List Char)
  | _, [] => .error "json: unterminated string"
  | acc, c :: rest =>
    if c = '"' then .ok (String.mk acc.reverse, rest)
    else if c = '\\' then
      match rest with
      | [] => .error "json: bad escape"
      | e :: rest2 =>
        if e = 'n' then jstr ('\n' :: acc) rest2
        else if e = 't' then jstr ('\t' :: acc) rest2
        else if e = 'r' then jstr ('\r' :: acc) rest2
        else if e = '"' ∨ e = '\\' ∨ e = '/' then jstr (e :: acc) rest2
        else .error "json: unsupported escape"
    else jstr (c :: acc) rest

/-- Digit characters to the natural number they denote. -/
def digitsToNat (l : List Char) : Nat :=
  l.foldl (fun n c => n * 10 + (c.toNat - 48)) 0

/-- Parse a JSON integer (floats are not needed by this model and are
rejected). -/
def jnum (cs : List Char) : Except String (PyVal × List Char) :=
  let (neg, cs') :=
    match cs with
    | '-' :: rest => (true, rest)
    | _ => (false, cs)
  let digits := cs'.takeWhile (fun c => c.isDigit)
  let rest := cs'.dropWhile (fun c => c.isDigit)
  if digits = [] then .error "json: bad number"
  else
    match rest with
    | '.' :: _ => .error "json: float not modelled"
    | 'e' :: _ => .error "json: float not modelled"
    | 'E' :: _ => .error "json: float not modelled"
    | _ =>
      let n : Int := Int.ofNat (digitsToNat digits)
      .ok (.num (if neg then -n else n), rest)

mutual

/-- Fuelled JSON value parser over the remaining characters. -/
def jval : Nat → List Char → Except String (PyVal × List Char)
  | 0, _ => .error "json: out of fuel"
  | Nat.succ fu, cs =>
    match dropWs cs with
    | [] => .error "json: empty"
    | 'n' :: 'u' :: 'l' :: 'l' :: rest => .ok (.pynull, rest)
    | 't' :: 'r' :: 'u' :: 'e' :: rest => .ok (.pybool true, rest)
    | 'f' :: 'a' :: 'l' :: 's' :: 'e' :: rest => .ok (.pybool false, rest)
    | '"' :: rest =>
      match jstr [] rest with
      | .ok (s, rest2) => .ok (.str s, rest2)
      | .error e => .error e
    | '[' :: rest =>
      (match dropWs rest with
       | ']' :: rest2 => .ok (.list [], rest2)
       | _ =>
         match jarr fu rest with
         | .ok (xs, rest2) => .ok (.list xs, rest2)
         | .error e => .error e)
    | '\x7b' :: rest =>
      (match dropWs rest with
       | '\x7d' :: rest2 => .ok (.dict [], rest2)
       | _ =>
         match jobj fu rest with
         | .ok (kvs, rest2) => .ok (.dict kvs, rest2)
         | .error e => .error e)
    | other => jnum other

/-- Fuelled parser for the elements of a JSON array (after `[` or `,`). -/
def jarr : Nat → List Char → Except String (List PyVal × List Char)
  | 0, _ => .error "json: out of fuel"
  | Nat.succ fu, cs =>
    match jval fu cs with
    | .error e => .error e
    | .ok (v, rest) =>
      match dropWs rest with
      | ']' :: rest2 => .ok ([v], rest2)
      | ',' :: rest2 =>
        match jarr fu rest2 with
        | .ok (xs, rest3) => .ok (v :: xs, rest3)
        | .error e => .error e
      | _ => .error "json: expected comma or bracket"

/-- Fuelled parser for the entries of a JSON object (after the opening
brace or a comma). -/
def jobj : Nat → List Char → Except String (List (String × PyVal) × List Char)
  | 0, _ => .error "json: out of fuel"
  | Nat.succ fu, cs =>
    match dropWs cs with
    | '"' :: rest =>
      (match jstr [] rest with
       | .error e => .error e
       | .ok (k, rest2) =>
         match dropWs rest2 with
         | ':' :: rest3 =>
           (match jval fu rest3 with
            | .error e => .error e
            | .ok (v, rest4) =>
              match dropWs rest4 with
              | '\x7d' :: rest5 => .ok ([(k, v)], rest5)
              | ',' :: rest5 =>
                (match jobj fu rest5 with
                 | .ok (kvs, rest6) => .ok ((k, v) :: kvs, rest6)
                 | .error e => .error e)
              | _ => .error "json: expected comma or brace")
         | _ => .error "json: expected colon")
    | _ => .error "json: expected key"

end

/-- `json.loads`: parse a complete JSON document. -/
def jsonLoads (s : String) : Except String PyVal :=
  match jval (s.length + 1) s.data with
  | .error e => .error ("JSONDecodeError: " ++ e)
  | .ok (v, rest) =>
    if dropWs rest = [] then .ok v else .error "JSONDecodeError: trailing data"

/-- One iteration of the loop in `create_scaffolding_structure`
(`running.py` lines 195-214): join the output dir with `item["full_path"]`,
create the parent directories, then either create the directory or write
the placeholder file (opened first, then the two `f.write` calls, each of
which evaluates one more subscript of `item`). -/
def applyItem (cwd : FsPath) (output_dir : String) (fs : FsMap) (item : PyVal) :
    FsM FsMap :=
  match pySubscr item "full_path" with
  | .error m => .error (m, fs)
  | .ok fpv =>
    match asPathArg fpv with
    | .error m => .error (m, fs)
    | .ok fp =>
      let full_path := osJoin output_dir fp
      match mkdirp fs (resolveStr cwd (osDirname full_path)) true with
      | .error e => .error e
      | .ok fs1 =>
        match pySubscr item "type" with
        | .error m => .error (m, fs1)
        | .ok tyv =>
          if pyIsStr tyv "directory" then
            mkdirp fs1 (resolveStr cwd full_path) true
          else
            match writeNewFile fs1 (resolveStr cwd full_path) "" with
            | .error e => .error e
            | .ok fs2 =>
              match pySubscr item "description" with
              | .error m => .error (m, fs2)
              | .ok dv =>
                match appendFile fs2 (resolveStr cwd full_path)
                    ("# Purpose: " ++ pyStrOf dv ++ "\n") with
                | .error e => .error e
                | .ok fs3 =>
                  match pySubscr item "expected_content" with
                  | .error m => .error (m, fs3)
                  | .ok ev =>
                    appendFile fs3 (resolveStr cwd full_path)
                      ("# Expected content type: " ++ pyStrOf ev ++ "\n")

/-- `create_scaffolding_structure(scaffolding_data, output_dir="scaffolding")`
(`running.py` lines 162-218): remove the output dir if present, recreate it,
then apply each item in order. `len()` and iteration of the payload happen
after the destructive reset, as in the source. -/
def create_scaffolding_structure (cwd : FsPath) (fs : FsMap)
    (scaffolding_data : PyVal) (output_dir : String := "scaffolding") :
    FsM FsMap :=
  let rootP := resolveStr cwd output_dir
  match
    (match lookupFS fs rootP with
     | some .dir => Except.ok (rmtreeFS fs rootP)
     | some (.file _) =>
       Except.error ("NotADirectoryError: rmtree " ++ output_dir, fs)
     | none => Except.ok fs : FsM FsMap)
  with
  | .error e => .error e
  | .ok fsA =>
    match mkdirp fsA rootP false with
    | .error e => .error e
    | .ok fsB =>
      match pyLen scaffolding_data with
      | .error m => .error (m, fsB)
      | .ok _ =>
        match pyIter scaffolding_data with
        | .error m => .error (m, fsB)
        | .ok items => items.foldlM (applyItem cwd output_dir) fsB

/-- The payload coercion of the fast-resume branch (`running.py` lines
289-305): parse a string payload as JSON, search a dict's values (in key
order) for the first list, then insist the result is a list. -/
def coerceFast (v0 : PyVal) : Except String (List PyVal) :=
  match (match v0 with | .str s => jsonLoads s | _ => .ok v0) with
  | .error m => .error m
  | .ok v1 =>
    match v1 with
    | .list xs => .ok xs
    | .dict kvs =>
      (match kvs.find? (fun kv => match kv.2 with | .list _ => true | _ => false) with
       | some kv =>
         (match kv.2 with
          | .list xs => .ok xs
          | _ => .error "ValueError: Unable to extract list from scaffolding data")
       | none => .error "ValueError: Unable to extract list from scaffolding data")
    | _ => .error "AttributeError: object has no attribute items"

/-- The payload coercion of the full-resume and new-project branches
(`running.py` lines 346-354 and 394-402): parse a string payload as JSON;
any other non-list value is passed through unchanged. -/
def coerceFull (v : PyVal) : Except String PyVal :=
  match v with
  | .list xs => .ok (.list xs)
  | .str s => jsonLoads s
  | other => .ok other

/-- The failure kinds of `requests.RequestException` the remote calls can
raise (all are caught alike by `except requests.RequestException`). -/
inductive ReqErrKind where
  | notFound : ReqErrKind
  | transport : ReqErrKind
  | authError : ReqErrKind
  | serverError : ReqErrKind
  | invalidUrl : ReqErrKind
deriving DecidableEq, Repr

/-- Result of one remote interaction: a value, a
`requests.RequestException` of some kind, or a non-request Python
exception (e.g. a JSON decode error in `response.json()`). -/
inductive CallResult (α : Type) where
  | ok : α → CallResult α
  | reqError : ReqErrKind → CallResult α
  | pyError : String → CallResult α

/-- The remote calls the workflow can issue, for trace recording. -/
inductive RemoteCall where
  | getScaffolding : RemoteCall
  | downloadScaffolding : RemoteCall
  | analyze : RemoteCall
  | document : RemoteCall
  | importLegacy : RemoteCall
deriving DecidableEq, Repr

/-- How one invocation of `main` ends: normal completion, an exception
re-raised to the caller, or the silent early `return` of the
missing-legacy-path check. -/
inductive Outcome where
  | completed : Outcome
  | raised : String → Outcome
  | returnedEarly : Outcome
deriving DecidableEq, Repr

/-- Result of a `main` invocation: final filesystem, ordered trace of
remote calls, and how the run ended. -/
structure WfResult where
  fs : FsMap
  calls : List RemoteCall
  outcome : Outcome
deriving DecidableEq, Repr

/-- Oracle for the remote service: the outcome of each call the workflow
may issue. `get_scaffolding` and `download` are indexed by how many such
calls happened before, since the workflow can issue them twice. -/
structure RemoteOracle where
  get_scaffolding : Nat → CallResult PyVal
  analyze_project : CallResult PyVal
  generate_documentation : CallResult PyVal
  download : Nat → String → CallResult String
  import_legacy : CallResult PyVal

/-- Message carried by a re-raised `requests.RequestException`. -/
def reqErrMsg : ReqErrKind → String
  | .notFound => "RequestException: 404 not found"
  | .transport => "RequestException: connection error"
  | .authError => "RequestException: 401 unauthorized"
  | .serverError => "RequestException: 500 server error"
  | .invalidUrl => "RequestException: invalid URL"

/-- `scaffolding["scaffolding"]["final"]`: extract the payload URL from a
`get_scaffolding` response (a `KeyError`/`TypeError` here is not a request
exception). -/
def getFinalUrl (resp : PyVal) : Except String PyVal :=
  match pySubscr resp "scaffolding" with
  | .error m => .error m
  | .ok v1 => pySubscr v1 "final"

/-- `download_and_parse_scaffolding(url)` (`running.py` lines 137-160):
`requests.get` (a non-string URL raises a `RequestException`), then
`json.loads(response.text)`, then the `len(data)` debug log. -/
def downloadAndParse (o : RemoteOracle) (idx : Nat) (urlv : PyVal) :
    CallResult PyVal :=
  match urlv with
  | .str url =>
    (match o.download idx url with
     | .ok text =>
       (match jsonLoads text with
        | .ok v => (match pyLen v with | .ok _ => .ok v | .error m => .pyError m)
        | .error m => .pyError m)
     | .reqError k => .reqError k
     | .pyError m => .pyError m)
  | _ => .reqError .invalidUrl

/-- The shared tail of the full-resume and new-project branches
(`running.py` lines 328-355 and 378-403): analyze, document, request
scaffolding, download, coerce, materialize. Every failure here is fatal. -/
def runPipeline (o : RemoteOracle) (gsIdx dlIdx : Nat) (cwd : FsPath)
    (fs0 : FsMap) (calls0 : List RemoteCall) : WfResult :=
  match o.analyze_project with
  | .reqError k => ⟨fs0, calls0 ++ [.analyze], .raised (reqErrMsg k)⟩
  | .pyError m => ⟨fs0, calls0 ++ [.analyze], .raised m⟩
  | .ok _ =>
    match o.generate_documentation with
    | .reqError k => ⟨fs0, calls0 ++ [.analyze, .document], .raised (reqErrMsg k)⟩
    | .pyError m => ⟨fs0, calls0 ++ [.analyze, .document], .raised m⟩
    | .ok _ =>
      match o.get_scaffolding gsIdx with
      | .reqError k =>
        ⟨fs0, calls0 ++ [.analyze, .document, .getScaffolding], .raised (reqErrMsg k)⟩
      | .pyError m =>
        ⟨fs0, calls0 ++ [.analyze, .document, .getScaffolding], .raised m⟩
      | .ok resp =>
        match getFinalUrl resp with
        | .error m =>
          ⟨fs0, calls0 ++ [.analyze, .document, .getScaffolding], .raised m⟩
        | .ok urlv =>
          match downloadAndParse o dlIdx urlv with
          | .reqError k =>
            ⟨fs0, calls0 ++ [.analyze, .document, .getScaffolding, .downloadScaffolding],
              .raised (reqErrMsg k)⟩
          | .pyError m =>
            ⟨fs0, calls0 ++ [.analyze, .document, .getScaffolding, .downloadScaffolding],
              .raised m⟩
          | .ok data =>
            match coerceFull data with
            | .error m =>
              ⟨fs0, calls0 ++ [.analyze, .document, .getScaffolding, .downloadScaffolding],
                .raised m⟩
            | .ok data2 =>
              match create_scaffolding_structure cwd fs0 data2 with
              | .ok fs1 =>
                ⟨fs1, calls0 ++ [.analyze, .document, .getScaffolding, .downloadScaffolding],
                  .completed⟩
              | .error (m, fsE) =>
                ⟨fsE, calls0 ++ [.analyze, .document, .getScaffolding, .downloadScaffolding],
                  .raised m⟩

/-- The resume branch of `main` (`running.py` lines 265-360): attempt
`get_scaffolding`; on success follow the fast path; a
`requests.RequestException` raised by `get_scaffolding` or by the payload
download enters the fallback pipeline; any other exception is re-raised. -/
def runMainResume (o : RemoteOracle) (cwd : FsPath) (fs0 : FsMap) : WfResult :=
  match o.get_scaffolding 0 with
  | .reqError _ => runPipeline o 1 1 cwd fs0 [.getScaffolding]
  | .pyError m => ⟨fs0, [.getScaffolding], .raised m⟩
  | .ok resp =>
    match getFinalUrl resp with
    | .error m => ⟨fs0, [.getScaffolding], .raised m⟩
    | .ok urlv =>
      match downloadAndParse o 0 urlv with
      | .reqError _ => runPipeline o 1 1 cwd fs0 [.getScaffolding, .downloadScaffolding]
      | .pyError m => ⟨fs0, [.getScaffolding, .downloadScaffolding], .raised m⟩
      | .ok data =>
        match coerceFast data with
        | .error m => ⟨fs0, [.getScaffolding, .downloadScaffolding], .raised m⟩
        | .ok items =>
          match create_scaffolding_structure cwd fs0 (.list items) with
          | .ok fs1 => ⟨fs1, [.getScaffolding, .downloadScaffolding], .completed⟩
          | .error (m, fsE) => ⟨fsE, [.getScaffolding, .downloadScaffolding], .raised m⟩

/-- The new-project branch of `main` (`running.py` lines 362-403): without
a legacy file path, print an error and return normally; otherwise import,
read `project_id` from the response, and run the pipeline. -/
def runMainNew (o : RemoteOracle) (cwd : FsPath) (fs0 : FsMap)
    (legacy_file_path : Option String) : WfResult :=
  match legacy_file_path with
  | none => ⟨fs0, [], .returnedEarly⟩
  | some _ =>
    match o.import_legacy with
    | .reqError k => ⟨fs0, [.importLegacy], .raised (reqErrMsg k)⟩
    | .pyError m => ⟨fs0, [.importLegacy], .raised m⟩
    | .ok resp =>
      match pySubscr resp "project_id" with
      | .error m => ⟨fs0, [.importLegacy], .raised m⟩
      | .ok _ => runPipeline o 0 0 cwd fs0 [.importLegacy]

/-- `main(legacy_file_path, project_id, ...)` (`running.py` lines 235-423):
dispatch on whether a project id was supplied. -/
def runMain (o : RemoteOracle) (cwd : FsPath) (fs0 : FsMap)
    (project_id : Option String) (legacy_file_path : Option String) : WfResult :=
  match project_id with
  | some _ => runMainResume o cwd fs0
  | none => runMainNew o cwd fs0 legacy_file_path

/-- `full_path` contains no `".."` segment (the spec's notion of a
parent-escaping entry, after normalization to forward slashes). -/
def noParentEscape (s : String) : Bool := !((splitPath s).contains "..")

/-- A manifest item is confined when its `full_path` (if it is a string
under that key) is relative and free of `".."` segments. Items that are
not even dicts with a string `full_path` are vacuously confined: they can
never reach a filesystem write. -/
def confinedItem (v : PyVal) : Bool :=
  match v with
  | .dict kvs =>
    (match kvs.find? (fun kv => kv.1 == "full_path") with
     | some kv =>
       (match kv.2 with
        | .str s => !(isAbs s) && noParentEscape s
        | _ => true)
     | none => true)
  | _ => true

/-- Every directory of the chain leading to `cwd` exists as a directory
(the state of a real process's working directory). -/
def cwdChainOk (fs : FsMap) (cwd : FsPath) : Bool :=
  (ancestorsOf cwd).all (fun q => lookupFS fs q == some FsNode.dir)

/-- Well-formed filesystem: every proper ancestor of every recorded path
exists and is a directory. -/
def wfFS (fs : FsMap) : Bool :=
  fs.all (fun e => ((ancestorsOf e.1).dropLast).all
    (fun q => lookupFS fs q == some FsNode.dir))

/-- A path exists as a directory, counting the filesystem root `[]` as
always present (as on a real system). -/
def dirExistsFS (fs : FsMap) (p : FsPath) : Prop :=
  p = [] ∨ lookupFS fs p = some FsNode.dir

/-- Invariant maintained by the materializer's item loop relative to the
state `Y` right after the output root was (re)created: nothing outside
the `cwd/scaffolding` subtree has changed, the root is still a directory,
and the chain of directories leading to `cwd` is intact. -/
def MatInv (cwd : FsPath) (Y st : FsMap) : Prop :=
  rmtreeFS st (cwd ++ ["scaffolding"]) = rmtreeFS Y (cwd ++ ["scaffolding"]) ∧
  lookupFS st (cwd ++ ["scaffolding"]) = some FsNode.dir ∧
  cwdChainOk st cwd = true

/-! Concrete states, payloads and oracles used by witnesses and
counterexamples. -/

/-- A working directory two levels deep. -/
def cwdHome : FsPath := ["home", "user"]

/-- Filesystem holding just the working-directory chain. -/
def fsHome : FsMap := [(["home"], .dir), (["home", "user"], .dir)]

/-- A manifest entry whose `full_path` escapes the output root. -/
def escapeItem : PyVal :=
  .dict [("full_path", .str "../../etc/passwd"), ("type", .str "file"),
         ("description", .str "pwn"), ("expected_content", .str "text")]

/-- A well-formed single-file manifest entry. -/
def goodItem : PyVal :=
  .dict [("full_path", .str "src/main.py"), ("type", .str "file"),
         ("description", .str "entry point"), ("expected_content", .str "python")]

/-- The JSON text encoding `[goodItem]`. -/
def goodItemJson : String :=
  "[\x7b\"full_path\": \"src/main.py\", \"type\": \"file\", " ++
  "\"description\": \"entry point\", \"expected_content\": \"python\"\x7d]"

/-- A `get_scaffolding` response with a usable scaffold reference. -/
def gsResp : PyVal :=
  .dict [("scaffolding", .dict [("final", .str "http://x/scaffold.json")])]

/-- Oracle on which every remote call succeeds. -/
def oracleHappy : RemoteOracle where
  get_scaffolding := fun _ => .ok gsResp
  analyze_project := .ok .pynull
  generate_documentation := .ok .pynull
  download := fun _ _ => .ok goodItemJson
  import_legacy := .ok (.dict [("project_id", .str "pid-1")])

/-- Oracle whose first `get_scaffolding` fails with a transport error. -/
def oracleTransport : RemoteOracle :=
  { oracleHappy with
    get_scaffolding := fun n => if n = 0 then .reqError .transport else .ok gsResp }

/-- Oracle whose first `get_scaffolding` fails with a non-request error. -/
def oracleFatal : RemoteOracle :=
  { oracleHappy with
    get_scaffolding := fun n =>
      if n = 0 then .pyError "JSONDecodeError: bad response body" else .ok gsResp }

/-- Oracle serving an empty manifest list. -/
def oracleEmptyList : RemoteOracle :=
  { oracleHappy with download := fun _ _ => .ok "[]" }

/-- Oracle whose scaffolding exists (`get_scaffolding` always succeeds)
but whose first payload download fails with a transport error; the retry
succeeds. -/
def oracleFlakyDownload : RemoteOracle :=
  { oracleHappy with
    download := fun n _ =>
      if n = 0 then .reqError .transport else .ok goodItemJson }

/-- Oracle serving a manifest whose single entry has an absolute
`full_path` (and no `".."` segment). -/
def oracleAbsPath : RemoteOracle :=
  { oracleHappy with
    download := fun _ _ => .ok
      ("[\x7b\"full_path\": \"/etc/passwd\", \"type\": \"file\", " ++
       "\"description\": \"pwn\", \"expected_content\": \"text\"\x7d]") }

/-- The manifest entry of `oracleAbsPath`, as parsed. -/
def absPathItem : PyVal :=
  .dict [("full_path", .str "/etc/passwd"), ("type", .str "file"),
         ("description", .str "pwn"), ("expected_content", .str "text")]

/-- A `File` entry missing its `description` field. -/
def fileNoDesc : PyVal :=
  .dict [("full_path", .str "f.txt"), ("type", .str "file")]

/-- An entry using the `"dir"` synonym for its type. -/
def dirSynItem : PyVal :=
  .dict [("full_path", .str "d1"), ("type", .str "dir"),
         ("description", .str "d"), ("expected_content", .str "e")]

/-- `[goodItem]` wrapped in an object under a key. -/
def wrappedGood : PyVal := .dict [("items", .list [goodItem])]

/-- A pre-existing output root holding stale content. -/
def fsOldScaffold : FsMap :=
  [(["scaffolding"], .dir), (["scaffolding", "old"], .file "x")]

/-- The tree produced by materializing `[goodItem]` from an empty state. -/
def fsHappyOut : FsMap :=
  [(["scaffolding"], .dir), (["scaffolding", "src"], .dir),
   (["scaffolding", "src", "main.py"],
    .file "# Purpose: entry point\n# Expected content type: python\n")]

/-! ## Basic lemmas about the filesystem map -/

theorem find?_filter_keep (l : FsMap) (pr : FsPath → Bool) (q : FsPath)
    (h : pr q = true) :
    (l.filter (fun e => pr e.1)).find? (fun e => e.1 == q) =
      l.find? (fun e => e.1 == q) := by
  induction l with
  | nil => rfl
  | cons e rest ih =>
    by_cases he : e.1 = q
    · have hpr : pr e.1 = true := by rw [he]; exact h
      simp [List.filter_cons, hpr, List.find?_cons, he, h]
    · have hbe : (e.1 == q) = false := by simp [he]
      cases hpr : pr e.1 with
      | true => simp [List.filter_cons, hpr, List.find?_cons, hbe, ih]
      | false => simp [List.filter_cons, hpr, List.find?_cons, hbe, ih]

theorem find?_filter_drop (l : FsMap) (pr : FsPath → Bool) (q : FsPath)
    (h : pr q = false) :
    (l.filter (fun e => pr e.1)).find? (fun e => e.1 == q) = none := by
  induction l with
  | nil => rfl
  | cons e rest ih =>
    by_cases he : e.1 = q
    · have hpr : pr e.1 = false := by rw [he]; exact h
      simp [List.filter_cons, hpr, ih]
    · have hbe : (e.1 == q) = false := by simp [he]
      cases hpr : pr e.1 with
      | true => simp [List.filter_cons, hpr, List.find?_cons, hbe, ih]
      | false => simp [List.filter_cons, hpr, ih]

theorem lookupFS_set_self (fs : FsMap) (p : FsPath) (n : FsNode) :
    lookupFS (setFS fs p n) p = some n := by
  unfold lookupFS setFS
  rw [List.find?_append, find?_filter_drop fs (fun x => !(x == p)) p (by simp)]
  simp

theorem lookupFS_set_ne (fs : FsMap) (p q : FsPath) (n : FsNode) (h : q ≠ p) :
    lookupFS (setFS fs p n) q = lookupFS fs q := by
  unfold lookupFS setFS
  rw [List.find?_append, find?_filter_keep fs (fun x => !(x == p)) q (by simp [h])]
  have hpq : (p == q) = false := by
    simp only [beq_eq_false_iff_ne, ne_eq]
    exact fun hc => h hc.symm
  simp [List.find?_cons, hpq]

theorem lookupFS_rmtree_not_under (fs : FsMap) (root q : FsPath)
    (h : root.isPrefixOf q = false) :
    lookupFS (rmtreeFS fs root) q = lookupFS fs q := by
  unfold lookupFS rmtreeFS
  rw [find?_filter_keep fs (fun x => !(root.isPrefixOf x)) q (by simp [h])]

theorem lookupFS_rmtree_under (fs : FsMap) (root q : FsPath)
    (h : root.isPrefixOf q = true) :
    lookupFS (rmtreeFS fs root) q = none := by
  unfold lookupFS rmtreeFS
  rw [find?_filter_drop fs (fun x => !(root.isPrefixOf x)) q (by simp [h])]
  rfl

theorem rmtree_set_under (fs : FsMap) (root q : FsPath) (n : FsNode)
    (h : root.isPrefixOf q = true) :
    rmtreeFS (setFS fs q n) root = rmtreeFS fs root := by
  unfold rmtreeFS setFS
  rw [List.filter_append, List.filter_filter]
  have h2 : (List.filter (fun e => !root.isPrefixOf e.1) [(q, n)] : FsMap) = [] := by
    simp [List.filter_cons, h]
  rw [h2, List.append_nil]
  apply List.filter_congr
  intro e _
  by_cases hq : e.1 = q
  · simp [hq, h]
  · simp [hq]

theorem rmtree_idem (fs : FsMap) (root : FsPath) :
    rmtreeFS (rmtreeFS fs root) root = rmtreeFS fs root := by
  unfold rmtreeFS
  rw [List.filter_filter]
  apply List.filter_congr
  intro e _
  cases root.isPrefixOf e.1 <;> simp

theorem rmtree_wf_none (fs : FsMap) (root : FsPath) (hroot : root ≠ [])
    (hwf : wfFS fs = true) (h : lookupFS fs root = none) :
    rmtreeFS fs root = fs := by
  unfold rmtreeFS
  rw [List.filter_eq_self]
  intro e he
  cases hpre : root.isPrefixOf e.1
  · rfl
  · exfalso
    rw [List.isPrefixOf_iff_prefix] at hpre
    by_cases heq : e.1 = root
    · have : lookupFS fs root ≠ none := by
        unfold lookupFS
        have : fs.find? (fun x => x.1 == root) ≠ none := by
          intro hc
          rw [List.find?_eq_none] at hc
          exact hc e he (by simp [heq])
        cases hf : fs.find? (fun x => x.1 == root)
        · exact absurd hf this
        · simp
      exact this h
    · -- root is a proper nonempty prefix of e.1, so wfFS puts it among the
      -- listed ancestors of e.1, contradicting the failed lookup
      have hlen : root.length < e.1.length := by
        rcases hpre with ⟨t, ht⟩
        rcases t with _ | ⟨a, t'⟩
        · exact absurd (by rw [← ht]; simp) heq
        · rw [← ht]; simp
      have hmem : root ∈ (ancestorsOf e.1).dropLast := by
        have h1 : root = e.1.take root.length := by
          rcases hpre with ⟨t, ht⟩
          rw [← ht, List.take_append_eq_append_take]
          simp
        have h2 : (ancestorsOf e.1).dropLast =
            (List.range (e.1.length - 1)).map (fun i => e.1.take (i + 1)) := by
          unfold ancestorsOf
          rw [← List.map_dropLast]
          congr 1
          rw [List.dropLast_eq_take, List.length_range, List.take_range]
          congr 1
          omega
        rw [h2]
        have hr : root.length - 1 < e.1.length - 1 := by
          have hr0 : 0 < root.length := List.length_pos.mpr hroot
          omega
        refine List.mem_map.mpr ⟨root.length - 1, List.mem_range.mpr hr, ?_⟩
        have : root.length - 1 + 1 = root.length := by
          have hr0 : 0 < root.length := List.length_pos.mpr hroot
          omega
        rw [this, ← h1]
      unfold wfFS at hwf
      rw [List.all_eq_true] at hwf
      have h3 := hwf e he
      rw [List.all_eq_true] at h3
      have h4 := h3 root hmem
      simp at h4
      rw [h4] at h
      exact Option.noConfusion h

/-! ## Path-resolution lemmas -/

theorem splitSegsAux_no_slash (cs : List Char) (acc : List Char) (h : '/' ∉ cs) :
    splitSegsAux acc cs = [acc.reverse ++ cs] := by
  induction cs generalizing acc with
  | nil => simp [splitSegsAux]
  | cons c rest ih =>
    have hc : ¬(c = '/') := fun hc => h (hc ▸ List.mem_cons_self c rest)
    have hr : '/' ∉ rest := fun hr => h (List.mem_cons_of_mem _ hr)
    simp [splitSegsAux, hc, ih (c :: acc) hr]

theorem splitSegsAux_slash_split (xs : List Char) (acc ys : List Char)
    (h : '/' ∉ xs) :
    splitSegsAux acc (xs ++ '/' :: ys) = (acc.reverse ++ xs) :: splitSegsAux [] ys := by
  induction xs generalizing acc with
  | nil => simp [splitSegsAux]
  | cons c rest ih =>
    have hc : ¬(c = '/') := fun hc => h (hc ▸ List.mem_cons_self c rest)
    have hr : '/' ∉ rest := fun hr => h (List.mem_cons_of_mem _ hr)
    simp [splitSegsAux, hc, ih (c :: acc) hr]

theorem splitSegsAux_ne_nil (cs acc : List Char) : splitSegsAux acc cs ≠ [] := by
  induction cs generalizing acc with
  | nil => simp [splitSegsAux]
  | cons c rest ih =>
    by_cases hc : c = '/'
    · simp [splitSegsAux, hc]
    · simp [splitSegsAux, hc]
      exact ih (c :: acc)

theorem splitPath_ne_nil (s : String) : splitPath s ≠ [] := by
  unfold splitPath
  intro hc
  exact splitSegsAux_ne_nil s.data [] (List.map_eq_nil_iff.mp hc)

theorem splitSegsAux_no_slash_mem (cs : List Char) (acc : List Char)
    (hacc : '/' ∉ acc) :
    ∀ l ∈ splitSegsAux acc cs, '/' ∉ l := by
  induction cs generalizing acc with
  | nil =>
    intro l hl
    simp [splitSegsAux] at hl
    subst hl
    simpa using hacc
  | cons c rest ih =>
    by_cases hc : c = '/'
    · intro l hl
      simp [splitSegsAux, hc] at hl
      cases hl with
      | inl h1 =>
        subst h1
        simpa using hacc
      | inr h1 => exact ih [] (by simp) l h1
    · intro l hl
      simp [splitSegsAux, hc] at hl
      refine ih (c :: acc) ?_ l hl
      intro hmem
      cases List.mem_cons.mp hmem with
      | inl h1 => exact hc h1.symm
      | inr h1 => exact hacc h1

theorem splitPath_seg_no_slash (s : String) :
    ∀ seg ∈ splitPath s, '/' ∉ seg.data := by
  intro seg hseg
  unfold splitPath at hseg
  obtain ⟨l, hl, rfl⟩ := List.mem_map.mp hseg
  exact splitSegsAux_no_slash_mem s.data [] (by simp) l hl

theorem splitPath_no_slash (a : String) (h : '/' ∉ a.data) : splitPath a = [a] := by
  unfold splitPath
  rw [splitSegsAux_no_slash a.data [] h]
  rfl

theorem splitPath_slash_cons (a fp : String) (h : '/' ∉ a.data) :
    splitPath (a ++ "/" ++ fp) = a :: splitPath fp := by
  unfold splitPath
  have hd : (a ++ "/" ++ fp).data = a.data ++ '/' :: fp.data := by
    rw [String.data_append, String.data_append]
    have h2 : ("/" : String).data = ['/'] := rfl
    rw [h2, List.append_assoc]
    rfl
  rw [hd, splitSegsAux_slash_split a.data [] fp.data h]
  rfl

theorem splitPath_joinPath (l : List String) (hne : l ≠ [])
    (h : ∀ seg ∈ l, '/' ∉ seg.data) : splitPath (joinPath l) = l := by
  induction l with
  | nil => exact absurd rfl hne
  | cons a rest ih =>
    cases rest with
    | nil =>
      show splitPath (joinPath [a]) = [a]
      have : joinPath [a] = a := rfl
      rw [this, splitPath_no_slash a (h a (List.mem_cons_self a []))]
    | cons b rest' =>
      have hj : joinPath (a :: b :: rest') = a ++ "/" ++ joinPath (b :: rest') := rfl
      rw [hj, splitPath_slash_cons a _ (h a (List.mem_cons_self _ _)),
        ih (by simp) (fun seg hs => h seg (List.mem_cons_of_mem _ hs))]

theorem resolveSegs_keeps_pre (segs : List String) (root : FsPath) :
    ∀ acc : FsPath, ".." ∉ segs → root <+: acc → root <+: resolveSegs acc segs := by
  induction segs with
  | nil => intro acc _ hpre; exact hpre
  | cons s rest ih =>
    intro acc h hpre
    have hs : ¬(s = "..") := fun he => h (he ▸ List.mem_cons_self s rest)
    have hr : ".." ∉ rest := fun hm => h (List.mem_cons_of_mem _ hm)
    by_cases h1 : s = "" ∨ s = "."
    · rw [show resolveSegs acc (s :: rest) = resolveSegs acc rest from by
        simp [resolveSegs, h1]]
      exact ih acc hr hpre
    · rw [show resolveSegs acc (s :: rest) = resolveSegs (acc ++ [s]) rest from by
        simp [resolveSegs, h1, hs]]
      exact ih (acc ++ [s]) hr (hpre.trans ⟨[s], rfl⟩)

theorem noParentEscape_iff (s : String) :
    noParentEscape s = true ↔ ".." ∉ splitPath s := by
  simp [noParentEscape]

/-- Splitting `"scaffolding/" ++ fp` peels off the literal first segment. -/
theorem splitPath_scaffolding (fp : String) :
    splitPath ("scaffolding" ++ "/" ++ fp) = "scaffolding" :: splitPath fp :=
  splitPath_slash_cons "scaffolding" fp (by decide)

theorem resolveSegs_scaffolding_cons (cwd : FsPath) (l : List String) :
    resolveSegs cwd ("scaffolding" :: l) = resolveSegs (cwd ++ ["scaffolding"]) l := by
  simp [resolveSegs]

theorem isAbs_scaffolding_join (rest : String) :
    isAbs ("scaffolding" ++ "/" ++ rest) = false := rfl

theorem resolveStr_scaffolding_join (cwd : FsPath) (fp : String)
    (h : isAbs fp = false) :
    resolveStr cwd (osJoin "scaffolding" fp) =
      resolveSegs (cwd ++ ["scaffolding"]) (splitPath fp) := by
  unfold osJoin
  rw [h]
  show resolveStr cwd ("scaffolding" ++ "/" ++ fp) = _
  unfold resolveStr
  rw [isAbs_scaffolding_join]
  show resolveSegs cwd (splitPath ("scaffolding" ++ "/" ++ fp)) = _
  rw [splitPath_scaffolding, resolveSegs_scaffolding_cons]

theorem resolveStr_scaffolding_dirname (cwd : FsPath) (fp : String)
    (h : isAbs fp = false) :
    resolveStr cwd (osDirname (osJoin "scaffolding" fp)) =
      resolveSegs (cwd ++ ["scaffolding"]) ((splitPath fp).dropLast) := by
  unfold osJoin
  rw [h]
  show resolveStr cwd (osDirname ("scaffolding" ++ "/" ++ fp)) = _
  unfold osDirname
  rw [splitPath_scaffolding]
  have hne := splitPath_ne_nil fp
  have hdl : ("scaffolding" :: splitPath fp).dropLast =
      "scaffolding" :: (splitPath fp).dropLast := by
    cases hsp : splitPath fp with
    | nil => exact absurd hsp hne
    | cons x xs => simp
  rw [hdl]
  have hseg : ∀ seg ∈ ("scaffolding" :: (splitPath fp).dropLast), '/' ∉ seg.data := by
    intro seg hs
    cases List.mem_cons.mp hs with
    | inl h1 => subst h1; decide
    | inr h1 =>
      exact splitPath_seg_no_slash fp seg (List.dropLast_subset _ h1)
  unfold resolveStr
  have habs : isAbs (joinPath ("scaffolding" :: (splitPath fp).dropLast)) = false := by
    cases hsp : (splitPath fp).dropLast with
    | nil => rfl
    | cons x xs => exact isAbs_scaffolding_join _
  rw [habs]
  show resolveSegs cwd (splitPath (joinPath ("scaffolding" :: (splitPath fp).dropLast))) = _
  rw [splitPath_joinPath _ (by simp) hseg, resolveSegs_scaffolding_cons]

/-! ## Reduction lemmas for the workflow runner -/

theorem runPipeline_has_analyze (o : RemoteOracle) (g d : Nat) (cwd : FsPath)
    (fs0 : FsMap) (calls0 : List RemoteCall) :
    ∃ rest, (runPipeline o g d cwd fs0 calls0).calls =
      calls0 ++ (RemoteCall.analyze :: rest) := by
  unfold runPipeline
  repeat' split
  all_goals exact ⟨_, rfl⟩

theorem runMainResume_on_reqError (o : RemoteOracle) (cwd : FsPath) (fs0 : FsMap)
    (k : ReqErrKind) (h : o.get_scaffolding 0 = CallResult.reqError k) :
    runMainResume o cwd fs0 = runPipeline o 1 1 cwd fs0 [RemoteCall.getScaffolding] := by
  unfold runMainResume
  rw [h]

theorem runMainResume_on_pyError (o : RemoteOracle) (cwd : FsPath) (fs0 : FsMap)
    (m : String) (h : o.get_scaffolding 0 = CallResult.pyError m) :
    runMainResume o cwd fs0 = ⟨fs0, [RemoteCall.getScaffolding], Outcome.raised m⟩ := by
  unfold runMainResume
  rw [h]

theorem runMainResume_fast_ok (o : RemoteOracle) (cwd : FsPath) (fs0 : FsMap)
    (resp urlv data : PyVal) (items : List PyVal) (fs1 : FsMap)
    (h1 : o.get_scaffolding 0 = CallResult.ok resp)
    (h2 : getFinalUrl resp = Except.ok urlv)
    (h3 : downloadAndParse o 0 urlv = CallResult.ok data)
    (h4 : coerceFast data = Except.ok items)
    (h5 : create_scaffolding_structure cwd fs0 (PyVal.list items) = Except.ok fs1) :
    runMainResume o cwd fs0 =
      ⟨fs1, [RemoteCall.getScaffolding, RemoteCall.downloadScaffolding],
        Outcome.completed⟩ := by
  unfold runMainResume
  rw [h1]
  simp only [h2, h3, h4, h5]

/-! ## Claim theorems -/

/-- Claim C1, counterexample: no rejection of parent-escaping `full_path`
entries exists. Materializing a manifest whose single entry has
`full_path = "../../etc/passwd"` succeeds and creates a directory
`/home/etc` and a file `/home/etc/passwd` outside the output root
`/home/user/scaffolding`. -/
theorem c1_counterexample :
    create_scaffolding_structure cwdHome fsHome (PyVal.list [escapeItem]) =
      Except.ok [(["home"], FsNode.dir), (["home", "user"], FsNode.dir),
        (["home", "user", "scaffolding"], FsNode.dir), (["home", "etc"], FsNode.dir),
        (["home", "etc", "passwd"],
         FsNode.file "# Purpose: pwn\n# Expected content type: text\n")] ∧
    (["home", "user", "scaffolding"] : FsPath).isPrefixOf ["home", "etc", "passwd"] =
      false :=
  ⟨rfl, by decide⟩

/-- Claim C2, counterexample: a transport error (not a "not found"
outcome) on the initial `get_scaffolding` attempt does trigger the
analyze/document fallback, which then runs to completion. -/
theorem c2_counterexample :
    RemoteCall.analyze ∈ (runMainResume oracleTransport [] []).calls ∧
    (runMainResume oracleTransport [] []).outcome = Outcome.completed := by
  have h : (runMainResume oracleTransport [] []).calls =
      [RemoteCall.getScaffolding, RemoteCall.analyze, RemoteCall.document,
       RemoteCall.getScaffolding, RemoteCall.downloadScaffolding] := rfl
  exact ⟨by rw [h]; decide, rfl⟩

/-- Claim C2, amended: the fallback runs whenever the initial
`get_scaffolding` fails with a `requests.RequestException` of any kind
(transport and auth errors included), while non-request failures of that
call are fatal and do not trigger analysis. -/
theorem c2_fallback_on_any_request_error (o : RemoteOracle) (cwd : FsPath)
    (fs0 : FsMap) :
    (∀ k, o.get_scaffolding 0 = CallResult.reqError k →
      RemoteCall.analyze ∈ (runMainResume o cwd fs0).calls) ∧
    (∀ m, o.get_scaffolding 0 = CallResult.pyError m →
      RemoteCall.analyze ∉ (runMainResume o cwd fs0).calls ∧
      (runMainResume o cwd fs0).outcome = Outcome.raised m) := by
  constructor
  · intro k h
    rw [runMainResume_on_reqError o cwd fs0 k h]
    obtain ⟨rest, hr⟩ := runPipeline_has_analyze o 1 1 cwd fs0 [RemoteCall.getScaffolding]
    rw [hr]
    simp
  · intro m h
    rw [runMainResume_on_pyError o cwd fs0 m h]
    exact ⟨by simp, rfl⟩

/-- Witness for the amended C2 at concrete oracles: a transport failure
triggers the fallback, a non-request failure is fatal without analysis. -/
theorem c2_fallback_on_any_request_error_witness :
    RemoteCall.analyze ∈ (runMainResume oracleTransport [] ([] : FsMap)).calls ∧
    (RemoteCall.analyze ∉ (runMainResume oracleFatal [] ([] : FsMap)).calls ∧
      (runMainResume oracleFatal [] ([] : FsMap)).outcome =
        Outcome.raised "JSONDecodeError: bad response body") :=
  ⟨(c2_fallback_on_any_request_error oracleTransport [] []).1 ReqErrKind.transport rfl,
   (c2_fallback_on_any_request_error oracleFatal [] []).2
     "JSONDecodeError: bad response body" rfl⟩

/-- Claim C3, counterexample: scaffolding is available (`get_scaffolding`
succeeds, and the payload is retrievable on retry), yet a transport
failure of the first payload download is caught by the blanket
`except requests.RequestException` (`running.py:323`): the run invokes
analyze and document and still completes materialization. -/
theorem c3_counterexample :
    oracleFlakyDownload.get_scaffolding 0 = CallResult.ok gsResp ∧
    (runMainResume oracleFlakyDownload [] []).outcome = Outcome.completed ∧
    RemoteCall.analyze ∈ (runMainResume oracleFlakyDownload [] []).calls ∧
    RemoteCall.document ∈ (runMainResume oracleFlakyDownload [] []).calls := by
  have h : (runMainResume oracleFlakyDownload [] []).calls =
      [RemoteCall.getScaffolding, RemoteCall.downloadScaffolding,
       RemoteCall.analyze, RemoteCall.document, RemoteCall.getScaffolding,
       RemoteCall.downloadScaffolding] := rfl
  exact ⟨rfl, rfl, by rw [h]; decide, by rw [h]; decide⟩

/-- Claim C3, amended: with scaffolding available, the workflow skips
analyze and document exactly when the fast path's payload download
succeeds; a `requests.RequestException` raised by that download sends the
run into the analyze/document fallback even though scaffolding exists. -/
theorem c3_fast_resume_only_if_download_ok (o : RemoteOracle) (cwd : FsPath)
    (fs0 : FsMap) (resp urlv : PyVal)
    (h1 : o.get_scaffolding 0 = CallResult.ok resp)
    (h2 : getFinalUrl resp = Except.ok urlv) :
    (∀ (data : PyVal) (items : List PyVal) (fs1 : FsMap),
      downloadAndParse o 0 urlv = CallResult.ok data →
      coerceFast data = Except.ok items →
      create_scaffolding_structure cwd fs0 (PyVal.list items) = Except.ok fs1 →
      runMainResume o cwd fs0 =
        ⟨fs1, [RemoteCall.getScaffolding, RemoteCall.downloadScaffolding],
          Outcome.completed⟩ ∧
      RemoteCall.analyze ∉ (runMainResume o cwd fs0).calls ∧
      RemoteCall.document ∉ (runMainResume o cwd fs0).calls) ∧
    (∀ k, downloadAndParse o 0 urlv = CallResult.reqError k →
      runMainResume o cwd fs0 =
        runPipeline o 1 1 cwd fs0
          [RemoteCall.getScaffolding, RemoteCall.downloadScaffolding] ∧
      RemoteCall.analyze ∈ (runMainResume o cwd fs0).calls) := by
  constructor
  · intro data items fs1 h3 h4 h5
    have heq := runMainResume_fast_ok o cwd fs0 resp urlv data items fs1 h1 h2 h3 h4 h5
    refine ⟨heq, ?_, ?_⟩ <;> rw [heq] <;> simp
  · intro k h3
    have heq : runMainResume o cwd fs0 =
        runPipeline o 1 1 cwd fs0
          [RemoteCall.getScaffolding, RemoteCall.downloadScaffolding] := by
      unfold runMainResume
      rw [h1]
      simp only [h2, h3]
    refine ⟨heq, ?_⟩
    rw [heq]
    obtain ⟨rest, hr⟩ := runPipeline_has_analyze o 1 1 cwd fs0
      [RemoteCall.getScaffolding, RemoteCall.downloadScaffolding]
    rw [hr]
    simp

/-- Witness for the amended C3: the all-success oracle stays on the fast
path, the flaky-download oracle enters the fallback. -/
theorem c3_fast_resume_only_if_download_ok_witness :
    (runMainResume oracleHappy [] [] =
      ⟨fsHappyOut, [RemoteCall.getScaffolding, RemoteCall.downloadScaffolding],
        Outcome.completed⟩ ∧
     RemoteCall.analyze ∉ (runMainResume oracleHappy [] []).calls ∧
     RemoteCall.document ∉ (runMainResume oracleHappy [] []).calls) ∧
    (runMainResume oracleFlakyDownload [] [] =
      runPipeline oracleFlakyDownload 1 1 [] []
        [RemoteCall.getScaffolding, RemoteCall.downloadScaffolding] ∧
     RemoteCall.analyze ∈ (runMainResume oracleFlakyDownload [] []).calls) :=
  ⟨(c3_fast_resume_only_if_download_ok oracleHappy [] [] gsResp
      (PyVal.str "http://x/scaffold.json") rfl rfl).1
    (PyVal.list [goodItem]) [goodItem] fsHappyOut rfl rfl rfl,
   (c3_fast_resume_only_if_download_ok oracleFlakyDownload [] [] gsResp
      (PyVal.str "http://x/scaffold.json") rfl rfl).2
    ReqErrKind.transport rfl⟩

/-- Claim C4, counterexample: wrapping the item list in an object is only
unwrapped by the fast-resume coercion; the full-resume/new-project
coercion passes the object through unchanged (which is not the canonical
manifest), and materializing that object fails while the direct list
succeeds. -/
theorem c4_counterexample :
    coerceFast wrappedGood = Except.ok [goodItem] ∧
    coerceFull wrappedGood = Except.ok wrappedGood ∧
    wrappedGood ≠ PyVal.list [goodItem] ∧
    create_scaffolding_structure [] [] wrappedGood =
      Except.error ("TypeError: value is not subscriptable with full_path",
        [(["scaffolding"], FsNode.dir)]) ∧
    create_scaffolding_structure [] [] (PyVal.list [goodItem]) =
      Except.ok fsHappyOut :=
  ⟨rfl, rfl, fun h => PyVal.noConfusion h, rfl, rfl⟩

/-- Claim C4, amended: on the fast-resume branch a direct list, a
JSON-string-encoded list, and a single-key object wrapping the list all
normalize to the same item list; on the other branches only the direct
list and the JSON string agree (the object wrapper is passed through). -/
theorem c4_normalization_shape_agreement (items : List PyVal) (s key : String)
    (hs : jsonLoads s = Except.ok (PyVal.list items)) :
    coerceFast (PyVal.list items) = Except.ok items ∧
    coerceFast (PyVal.str s) = Except.ok items ∧
    coerceFast (PyVal.dict [(key, PyVal.list items)]) = Except.ok items ∧
    coerceFull (PyVal.list items) = Except.ok (PyVal.list items) ∧
    coerceFull (PyVal.str s) = Except.ok (PyVal.list items) := by
  refine ⟨rfl, ?_, rfl, rfl, hs⟩
  unfold coerceFast
  simp only [hs]

/-- Witness for the amended C4 at a concrete list and encoding. -/
theorem c4_normalization_shape_agreement_witness :
    coerceFast (PyVal.list []) = Except.ok [] ∧
    coerceFast (PyVal.str "[]") = Except.ok [] ∧
    coerceFast (PyVal.dict [("items", PyVal.list [])]) = Except.ok [] ∧
    coerceFull (PyVal.list []) = Except.ok (PyVal.list []) ∧
    coerceFull (PyVal.str "[]") = Except.ok (PyVal.list []) :=
  c4_normalization_shape_agreement [] "[]" "items" rfl

/-- Claim C7, counterexample: a `File` item without `description` is not
defaulted — materialization aborts with a `KeyError` (after the empty
placeholder file was already opened). -/
theorem c7_counterexample :
    create_scaffolding_structure [] [] (PyVal.list [fileNoDesc]) =
      Except.error ("KeyError: description",
        [(["scaffolding"], FsNode.dir), (["scaffolding", "f.txt"], FsNode.file "")]) :=
  rfl

/-- Claim C7, amended: an item routed to the file branch whose
`description` or `expected_content` is missing can never be materialized
successfully — no empty-string defaulting or warning exists. -/
theorem c7_missing_file_metadata_never_defaults (cwd : FsPath) (od : String)
    (fs : FsMap) (item tyv : PyVal) (st' : FsMap) (m0 : String)
    (hty : pySubscr item "type" = Except.ok tyv)
    (hnd : pyIsStr tyv "directory" = false)
    (hmiss : pySubscr item "description" = Except.error m0 ∨
             pySubscr item "expected_content" = Except.error m0) :
    applyItem cwd od fs item ≠ Except.ok st' := by
  intro hok
  unfold applyItem at hok
  cases h1 : pySubscr item "full_path" with
  | error m => simp [h1] at hok
  | ok fpv =>
    cases h2 : asPathArg fpv with
    | error m => simp [h1, h2] at hok
    | ok fp =>
      cases h3 : mkdirp fs (resolveStr cwd (osDirname (osJoin od fp))) true with
      | error e => simp [h1, h2, h3] at hok
      | ok fs1 =>
        cases h4 : writeNewFile fs1 (resolveStr cwd (osJoin od fp)) "" with
        | error e => simp [h1, h2, h3, hty, hnd, h4] at hok
        | ok fs2 =>
          cases hmiss with
          | inl hm => simp [h1, h2, h3, hty, hnd, h4, hm] at hok
          | inr hm =>
            cases h5 : pySubscr item "description" with
            | error m => simp [h1, h2, h3, hty, hnd, h4, h5] at hok
            | ok dv =>
              cases h6 : appendFile fs2 (resolveStr cwd (osJoin od fp))
                  ("# Purpose: " ++ pyStrOf dv ++ "\n") with
              | error e => simp [h1, h2, h3, hty, hnd, h4, h5, h6] at hok
              | ok fs3 => simp [h1, h2, h3, hty, hnd, h4, h5, h6, hm] at hok

/-- Witness for the amended C7 at the concrete descriptionless item. -/
theorem c7_missing_file_metadata_never_defaults_witness :
    applyItem [] "scaffolding" [(["scaffolding"], FsNode.dir)] fileNoDesc ≠
      Except.ok [(["scaffolding"], FsNode.dir)] :=
  c7_missing_file_metadata_never_defaults [] "scaffolding"
    [(["scaffolding"], FsNode.dir)] fileNoDesc (PyVal.str "file")
    [(["scaffolding"], FsNode.dir)] "KeyError: description" rfl rfl
    (Or.inl rfl)

/-- Claim C8, counterexample: a payload that normalizes to the empty list
is not rejected — the workflow proceeds to materialization, destructively
resetting the output root to an empty directory and completing. -/
theorem c8_counterexample :
    runMainResume oracleEmptyList [] fsOldScaffold =
      ⟨[(["scaffolding"], FsNode.dir)],
       [RemoteCall.getScaffolding, RemoteCall.downloadScaffolding],
       Outcome.completed⟩ :=
  rfl

/-- Claim C8, amended: the workflow checks only that the payload coerces
to a list; an empty list passes the check and is materialized (the reset
and root creation still run), completing normally. -/
theorem c8_empty_manifest_is_materialized (o : RemoteOracle) (cwd : FsPath)
    (fs0 : FsMap) (resp urlv data : PyVal) (fsA : FsMap)
    (h1 : o.get_scaffolding 0 = CallResult.ok resp)
    (h2 : getFinalUrl resp = Except.ok urlv)
    (h3 : downloadAndParse o 0 urlv = CallResult.ok data)
    (h4 : coerceFast data = Except.ok ([] : List PyVal))
    (h5 : create_scaffolding_structure cwd fs0 (PyVal.list []) = Except.ok fsA) :
    runMainResume o cwd fs0 =
      ⟨fsA, [RemoteCall.getScaffolding, RemoteCall.downloadScaffolding],
        Outcome.completed⟩ :=
  runMainResume_fast_ok o cwd fs0 resp urlv data [] fsA h1 h2 h3 h4 h5

/-- Witness for the amended C8: the empty-manifest oracle completes,
leaving only the freshly reset root. -/
theorem c8_empty_manifest_is_materialized_witness :
    runMainResume oracleEmptyList [] fsOldScaffold =
      ⟨[(["scaffolding"], FsNode.dir)],
       [RemoteCall.getScaffolding, RemoteCall.downloadScaffolding],
       Outcome.completed⟩ :=
  c8_empty_manifest_is_materialized oracleEmptyList [] fsOldScaffold gsResp
    (PyVal.str "http://x/scaffold.json") (PyVal.list [])
    [(["scaffolding"], FsNode.dir)] rfl rfl rfl rfl rfl

/-- Claim C9, counterexample: with neither `project_id` nor a legacy file
path, `main` prints an error and returns normally — no
`ConfigurationError` (or any exception) is raised. -/
theorem c9_counterexample :
    runMain oracleHappy [] [] none none = ⟨[], [], Outcome.returnedEarly⟩ :=
  rfl

/-- Claim C9, amended: with neither input supplied, the workflow returns
early without raising, and before issuing any remote call or touching the
filesystem. -/
theorem c9_missing_inputs_return_early (o : RemoteOracle) (cwd : FsPath)
    (fs0 : FsMap) :
    runMain o cwd fs0 none none = ⟨fs0, [], Outcome.returnedEarly⟩ :=
  rfl

/-- Claim C6, counterexample: the `"dir"` synonym is not recognized — the
type comparison is an exact match against `"directory"`, so a `"dir"`
item is materialized as a placeholder file, not a directory. -/
theorem c6_counterexample :
    create_scaffolding_structure [] [] (PyVal.list [dirSynItem]) =
      Except.ok [(["scaffolding"], FsNode.dir),
        (["scaffolding", "d1"],
         FsNode.file "# Purpose: d\n# Expected content type: e\n")] ∧
    lookupFS [(["scaffolding"], FsNode.dir),
        (["scaffolding", "d1"],
         FsNode.file "# Purpose: d\n# Expected content type: e\n")]
      ["scaffolding", "d1"] ≠ some FsNode.dir :=
  ⟨rfl, by decide⟩

/-- Claim C10, counterexample: an absolute `full_path` contains no `".."`
segment yet escapes the fixed `scaffolding` output root: the workflow
completes having written `/etc/passwd` at the filesystem root. -/
theorem c10_counterexample :
    noParentEscape "/etc/passwd" = true ∧
    runMainResume oracleAbsPath cwdHome fsHome =
      ⟨[(["home"], FsNode.dir), (["home", "user"], FsNode.dir),
        (["home", "user", "scaffolding"], FsNode.dir), (["etc"], FsNode.dir),
        (["etc", "passwd"],
         FsNode.file "# Purpose: pwn\n# Expected content type: text\n")],
       [RemoteCall.getScaffolding, RemoteCall.downloadScaffolding],
       Outcome.completed⟩ ∧
    (["home", "user", "scaffolding"] : FsPath).isPrefixOf ["etc", "passwd"] = false :=
  ⟨rfl, rfl, by decide⟩

/-! ## Invariant machinery for the materializer -/

theorem exbind_ok {ε α β : Type} (a : α) (f : α → Except ε β) :
    (Except.ok a >>= f : Except ε β) = f a := rfl

theorem exbind_error {ε α β : Type} (e : ε) (f : α → Except ε β) :
    (Except.error e >>= f : Except ε β) = Except.error e := rfl

theorem mem_ancestorsOf (p q : FsPath) :
    q ∈ ancestorsOf p ↔ ∃ i, i < p.length ∧ q = p.take (i + 1) := by
  unfold ancestorsOf
  simp [List.mem_map, List.mem_range, eq_comm]

theorem mem_ancestorsOf_length (p q : FsPath) (h : q ∈ ancestorsOf p) :
    q.length ≤ p.length ∧ q ≠ [] := by
  obtain ⟨i, hi, rfl⟩ := (mem_ancestorsOf p q).mp h
  constructor
  · rw [List.length_take]
    omega
  · have : (p.take (i + 1)).length = min (i + 1) p.length := List.length_take ..
    intro hc
    rw [hc] at this
    simp at this
    omega

theorem ancestorsOf_append_one (cwd : FsPath) (s : String) :
    ancestorsOf (cwd ++ [s]) = ancestorsOf cwd ++ [cwd ++ [s]] := by
  unfold ancestorsOf
  rw [List.length_append, List.length_cons, List.length_nil, List.range_succ,
    List.map_append]
  congr 1
  · apply List.map_congr_left
    intro i hi
    rw [List.mem_range] at hi
    rw [List.take_append_eq_append_take]
    have h1 : i + 1 - cwd.length = 0 := by omega
    have h2 : cwd.take (i + 1) = cwd.take (i + 1) := rfl
    rw [h1]
    simp
  · simp [List.take_append_eq_append_take, List.take_of_length_le]

theorem not_root_pre_of_anc (cwd q : FsPath) (h : q ∈ ancestorsOf cwd) :
    (cwd ++ ["scaffolding"]).isPrefixOf q = false := by
  have hlen := (mem_ancestorsOf_length cwd q h).1
  cases hpre : (cwd ++ ["scaffolding"]).isPrefixOf q
  · rfl
  · exfalso
    rw [List.isPrefixOf_iff_prefix] at hpre
    have h2 := hpre.length_le
    rw [List.length_append, List.length_cons, List.length_nil] at h2
    omega

theorem matInv_set_under (cwd : FsPath) (Y st : FsMap) (q : FsPath) (n : FsNode)
    (hq : (cwd ++ ["scaffolding"]).isPrefixOf q = true)
    (hqr : q ≠ cwd ++ ["scaffolding"])
    (hinv : MatInv cwd Y st) : MatInv cwd Y (setFS st q n) := by
  obtain ⟨h1, h2, h3⟩ := hinv
  refine ⟨?_, ?_, ?_⟩
  · rw [rmtree_set_under st _ q n hq, h1]
  · rw [lookupFS_set_ne st q _ n (fun hc => hqr hc.symm)]
    exact h2
  · unfold cwdChainOk at h3 ⊢
    rw [List.all_eq_true] at h3 ⊢
    intro a ha
    have hne : a ≠ q := by
      intro hc
      subst hc
      rw [not_root_pre_of_anc cwd a ha] at hq
      exact Bool.noConfusion hq
    rw [lookupFS_set_ne st q a n hne]
    exact h3 a ha

theorem ensureDir_ok_cases (st st' : FsMap) (q : FsPath)
    (h : ensureDir st q = Except.ok st') :
    (lookupFS st q = some FsNode.dir ∧ st' = st) ∨
    (lookupFS st q = none ∧ st' = setFS st q FsNode.dir) := by
  unfold ensureDir at h
  cases hl : lookupFS st q with
  | none =>
    rw [hl] at h
    injection h with h2
    exact Or.inr ⟨rfl, h2.symm⟩
  | some n =>
    cases n with
    | dir =>
      rw [hl] at h
      injection h with h2
      exact Or.inl ⟨rfl, h2.symm⟩
    | file c =>
      rw [hl] at h
      exact Except.noConfusion h

theorem chain_lookup_dir (cwd : FsPath) (Y st : FsMap) (q : FsPath)
    (hinv : MatInv cwd Y st)
    (hq : q ∈ ancestorsOf (cwd ++ ["scaffolding"])) :
    lookupFS st q = some FsNode.dir := by
  rw [ancestorsOf_append_one] at hq
  cases List.mem_append.mp hq with
  | inl h1 =>
    have h3 := hinv.2.2
    unfold cwdChainOk at h3
    rw [List.all_eq_true] at h3
    have := h3 q h1
    simpa using this
  | inr h1 =>
    have : q = cwd ++ ["scaffolding"] := by simpa using h1
    rw [this]
    exact hinv.2.1

theorem ensureDir_fold_matInv (cwd : FsPath) (qs : List FsPath) (Y : FsMap) :
    ∀ st st', (∀ q ∈ qs, q ∈ ancestorsOf (cwd ++ ["scaffolding"]) ∨
        (cwd ++ ["scaffolding"]).isPrefixOf q = true) →
      qs.foldlM ensureDir st = Except.ok st' → MatInv cwd Y st → MatInv cwd Y st' := by
  induction qs with
  | nil =>
    intro st st' _ hf hinv
    injection hf with h
    exact h ▸ hinv
  | cons q rest ih =>
    intro st st' hq hf hinv
    rw [List.foldlM_cons] at hf
    cases he : ensureDir st q with
    | error e =>
      rw [he] at hf
      exact Except.noConfusion hf
    | ok st1 =>
      rw [he] at hf
      have hinv1 : MatInv cwd Y st1 := by
        cases ensureDir_ok_cases st st1 q he with
        | inl h => exact h.2 ▸ hinv
        | inr h =>
          obtain ⟨hnone, hset⟩ := h
          cases hq q (List.mem_cons_self q rest) with
          | inl hanc =>
            rw [chain_lookup_dir cwd Y st q hinv hanc] at hnone
            exact Option.noConfusion hnone
          | inr hund =>
            rw [hset]
            apply matInv_set_under cwd Y st q FsNode.dir hund ?_ hinv
            intro hc
            rw [hc, hinv.2.1] at hnone
            exact Option.noConfusion hnone
      exact ih st1 st' (fun a ha => hq a (List.mem_cons_of_mem q ha)) hf hinv1

theorem ancestors_classified (cwd p : FsPath)
    (hp : (cwd ++ ["scaffolding"]) <+: p) :
    ∀ q ∈ ancestorsOf p, q ∈ ancestorsOf (cwd ++ ["scaffolding"]) ∨
      (cwd ++ ["scaffolding"]).isPrefixOf q = true := by
  intro q hq
  obtain ⟨i, hi, rfl⟩ := (mem_ancestorsOf p q).mp hq
  obtain ⟨t, rfl⟩ := hp
  by_cases hle : i + 1 ≤ (cwd ++ ["scaffolding"]).length
  · left
    rw [List.take_append_eq_append_take]
    have h1 : i + 1 - (cwd ++ ["scaffolding"]).length = 0 := by omega
    rw [h1]
    simp only [List.take_zero, List.append_nil]
    apply (mem_ancestorsOf _ _).mpr
    refine ⟨i, ?_, rfl⟩
    omega
  · right
    rw [List.isPrefixOf_iff_prefix, List.take_append_eq_append_take]
    rw [List.take_of_length_le (by omega)]
    exact ⟨_, rfl⟩

theorem mkdirp_under_matInv (cwd p : FsPath) (Y st st' : FsMap)
    (hp : (cwd ++ ["scaffolding"]) <+: p)
    (hok : mkdirp st p true = Except.ok st')
    (hinv : MatInv cwd Y st) : MatInv cwd Y st' := by
  unfold mkdirp at hok
  have hpne : ¬(p = []) := by
    intro hc
    subst hc
    have h2 := hp.length_le
    rw [List.length_append, List.length_cons, List.length_nil] at h2
    simp at h2
  rw [if_neg hpne] at hok
  cases hf : (ancestorsOf p).dropLast.foldlM ensureDir st with
  | error e =>
    rw [hf] at hok
    exact Except.noConfusion hok
  | ok st1 =>
    rw [hf, exbind_ok] at hok
    have hinv1 : MatInv cwd Y st1 :=
      ensureDir_fold_matInv cwd _ Y st st1
        (fun q hq => ancestors_classified cwd p hp q (List.dropLast_subset _ hq))
        hf hinv
    cases hl : lookupFS st1 p with
    | none =>
      rw [hl] at hok
      injection hok with h2
      rw [← h2]
      apply matInv_set_under cwd Y st1 p FsNode.dir
        ((List.isPrefixOf_iff_prefix).mpr hp) ?_ hinv1
      intro hc
      rw [hc, hinv1.2.1] at hl
      exact Option.noConfusion hl
    | some n =>
      cases n with
      | dir =>
        rw [hl] at hok
        injection hok with h2
        exact h2 ▸ hinv1
      | file c =>
        rw [hl] at hok
        exact Except.noConfusion hok

theorem confined_extract (item fpv : PyVal) (fp : String)
    (hconf : confinedItem item = true)
    (h1 : pySubscr item "full_path" = Except.ok fpv)
    (h2 : asPathArg fpv = Except.ok fp) :
    isAbs fp = false ∧ noParentEscape fp = true := by
  unfold confinedItem at hconf
  unfold pySubscr at h1
  cases item with
  | dict kvs =>
    dsimp only at h1 hconf
    cases hf : kvs.find? (fun kv => kv.1 == "full_path") with
    | none =>
      rw [hf] at h1
      exact Except.noConfusion h1
    | some kv =>
      rw [hf] at h1 hconf
      dsimp only at h1 hconf
      obtain ⟨k1, v2⟩ := kv
      dsimp only at h1 hconf
      injection h1 with h1'
      subst h1'
      unfold asPathArg at h2
      cases v2 with
      | str s =>
        dsimp only at h2 hconf
        injection h2 with h2'
        subst h2'
        simp at hconf
        exact ⟨hconf.1, hconf.2⟩
      | pynull => exact Except.noConfusion h2
      | pybool b => exact Except.noConfusion h2
      | num n => exact Except.noConfusion h2
      | list xs => exact Except.noConfusion h2
      | dict kvs2 => exact Except.noConfusion h2
  | pynull => exact Except.noConfusion h1
  | pybool b => exact Except.noConfusion h1
  | num n => exact Except.noConfusion h1
  | str s => exact Except.noConfusion h1
  | list xs => exact Except.noConfusion h1

theorem writeNewFile_ok (st st' : FsMap) (p : FsPath) (c : String)
    (h : writeNewFile st p c = Except.ok st') :
    st' = setFS st p (FsNode.file c) ∧ lookupFS st p ≠ some FsNode.dir := by
  unfold writeNewFile at h
  by_cases hp : p = []
  · rw [if_pos hp] at h
    exact Except.noConfusion h
  · rw [if_neg hp] at h
    cases hl : lookupFS st p with
    | some n =>
      cases n with
      | dir =>
        rw [hl] at h
        exact Except.noConfusion h
      | file c0 =>
        rw [hl] at h
        by_cases hdl : p.dropLast = []
        · rw [if_pos hdl] at h
          injection h with h2
          exact ⟨h2.symm, by simp⟩
        · rw [if_neg hdl] at h
          cases hpar : lookupFS st p.dropLast with
          | none =>
            rw [hpar] at h
            exact Except.noConfusion h
          | some m =>
            cases m with
            | dir =>
              rw [hpar] at h
              injection h with h2
              exact ⟨h2.symm, by simp⟩
            | file cx =>
              rw [hpar] at h
              exact Except.noConfusion h
    | none =>
      rw [hl] at h
      by_cases hdl : p.dropLast = []
      · rw [if_pos hdl] at h
        injection h with h2
        exact ⟨h2.symm, by simp⟩
      · rw [if_neg hdl] at h
        cases hpar : lookupFS st p.dropLast with
        | none =>
          rw [hpar] at h
          exact Except.noConfusion h
        | some m =>
          cases m with
          | dir =>
            rw [hpar] at h
            injection h with h2
            exact ⟨h2.symm, by simp⟩
          | file cx =>
            rw [hpar] at h
            exact Except.noConfusion h

theorem appendFile_ok (st st' : FsMap) (p : FsPath) (x : String)
    (h : appendFile st p x = Except.ok st') :
    ∃ c0, lookupFS st p = some (FsNode.file c0) ∧
      st' = setFS st p (FsNode.file (c0 ++ x)) := by
  unfold appendFile at h
  cases hl : lookupFS st p with
  | none =>
    rw [hl] at h
    exact Except.noConfusion h
  | some n =>
    cases n with
    | dir =>
      rw [hl] at h
      exact Except.noConfusion h
    | file c0 =>
      rw [hl] at h
      injection h with h2
      exact ⟨c0, rfl, h2.symm⟩

theorem applyItem_matInv (cwd : FsPath) (Y st st' : FsMap) (item : PyVal)
    (hconf : confinedItem item = true)
    (hok : applyItem cwd "scaffolding" st item = Except.ok st')
    (hinv : MatInv cwd Y st) : MatInv cwd Y st' := by
  unfold applyItem at hok
  cases h1 : pySubscr item "full_path" with
  | error m => rw [h1] at hok; exact Except.noConfusion hok
  | ok fpv =>
    rw [h1] at hok
    dsimp only at hok
    cases h2 : asPathArg fpv with
    | error m => rw [h2] at hok; exact Except.noConfusion hok
    | ok fp =>
      rw [h2] at hok
      dsimp only at hok
      obtain ⟨habs, hnpe⟩ := confined_extract item fpv fp hconf h1 h2
      have hdd : ".." ∉ splitPath fp := (noParentEscape_iff fp).mp hnpe
      have hdirpre : (cwd ++ ["scaffolding"]) <+:
          resolveStr cwd (osDirname (osJoin "scaffolding" fp)) := by
        rw [resolveStr_scaffolding_dirname cwd fp habs]
        exact resolveSegs_keeps_pre _ _ _
          (fun hm => hdd (List.dropLast_subset _ hm)) List.prefix_rfl
      have htgtpre : (cwd ++ ["scaffolding"]) <+:
          resolveStr cwd (osJoin "scaffolding" fp) := by
        rw [resolveStr_scaffolding_join cwd fp habs]
        exact resolveSegs_keeps_pre _ _ _ hdd List.prefix_rfl
      cases h3 : mkdirp st (resolveStr cwd (osDirname (osJoin "scaffolding" fp))) true with
      | error e => rw [h3] at hok; exact Except.noConfusion hok
      | ok st1 =>
        rw [h3] at hok
        dsimp only at hok
        have hinv1 := mkdirp_under_matInv cwd _ Y st st1 hdirpre h3 hinv
        cases h4 : pySubscr item "type" with
        | error m => rw [h4] at hok; exact Except.noConfusion hok
        | ok tyv =>
          rw [h4] at hok
          dsimp only at hok
          by_cases h5 : pyIsStr tyv "directory" = true
          · rw [if_pos h5] at hok
            exact mkdirp_under_matInv cwd _ Y st1 st' htgtpre hok hinv1
          · rw [if_neg h5] at hok
            cases h6 : writeNewFile st1 (resolveStr cwd (osJoin "scaffolding" fp)) "" with
            | error e => rw [h6] at hok; exact Except.noConfusion hok
            | ok st2 =>
              rw [h6] at hok
              dsimp only at hok
              obtain ⟨hset2, hnotdir⟩ := writeNewFile_ok st1 st2 _ "" h6
              have htne : resolveStr cwd (osJoin "scaffolding" fp) ≠
                  cwd ++ ["scaffolding"] := by
                intro hc
                exact hnotdir (by rw [hc]; exact hinv1.2.1)
              have hinv2 : MatInv cwd Y st2 := by
                rw [hset2]
                exact matInv_set_under cwd Y st1 _ _
                  ((List.isPrefixOf_iff_prefix).mpr htgtpre) htne hinv1
              cases h7 : pySubscr item "description" with
              | error m => rw [h7] at hok; exact Except.noConfusion hok
              | ok dv =>
                rw [h7] at hok
                dsimp only at hok
                cases h8 : appendFile st2 (resolveStr cwd (osJoin "scaffolding" fp))
                    ("# Purpose: " ++ pyStrOf dv ++ "\n") with
                | error e => rw [h8] at hok; exact Except.noConfusion hok
                | ok st3 =>
                  rw [h8] at hok
                  dsimp only at hok
                  obtain ⟨c0, hl3, hset3⟩ := appendFile_ok st2 st3 _ _ h8
                  have hinv3 : MatInv cwd Y st3 := by
                    rw [hset3]
                    exact matInv_set_under cwd Y st2 _ _
                      ((List.isPrefixOf_iff_prefix).mpr htgtpre) htne hinv2
                  cases h9 : pySubscr item "expected_content" with
                  | error m => rw [h9] at hok; exact Except.noConfusion hok
                  | ok ev =>
                    rw [h9] at hok
                    dsimp only at hok
                    obtain ⟨c1, hl4, hset4⟩ := appendFile_ok st3 st' _ _ hok
                    rw [hset4]
                    exact matInv_set_under cwd Y st3 _ _
                      ((List.isPrefixOf_iff_prefix).mpr htgtpre) htne hinv3

theorem applyItems_fold_matInv (cwd : FsPath) (items : List PyVal) (Y : FsMap) :
    ∀ st st', items.all confinedItem = true →
      items.foldlM (applyItem cwd "scaffolding") st = Except.ok st' →
      MatInv cwd Y st → MatInv cwd Y st' := by
  induction items with
  | nil =>
    intro st st' _ hf hinv
    injection hf with h
    exact h ▸ hinv
  | cons v rest ih =>
    intro st st' hconf hf hinv
    rw [List.all_cons] at hconf
    rw [List.foldlM_cons] at hf
    cases he : applyItem cwd "scaffolding" st v with
    | error e =>
      rw [he] at hf
      exact Except.noConfusion hf
    | ok st1 =>
      rw [he, exbind_ok] at hf
      exact ih st1 st' (Bool.and_elim_right hconf)
        hf (applyItem_matInv cwd Y st st1 v (Bool.and_elim_left hconf) he hinv)

theorem ensureDir_fold_id (qs : List FsPath) (st : FsMap)
    (h : ∀ q ∈ qs, lookupFS st q = some FsNode.dir) :
    qs.foldlM ensureDir st = Except.ok st := by
  induction qs with
  | nil => rfl
  | cons q rest ih =>
    rw [List.foldlM_cons]
    have he : ensureDir st q = Except.ok st := by
      unfold ensureDir
      rw [h q (List.mem_cons_self q rest)]
    rw [he, exbind_ok]
    exact ih (fun a ha => h a (List.mem_cons_of_mem _ ha))

theorem mkdirp_root_fresh (cwd : FsPath) (fsA : FsMap)
    (hchain : cwdChainOk fsA cwd = true)
    (hnone : lookupFS fsA (cwd ++ ["scaffolding"]) = none) :
    mkdirp fsA (cwd ++ ["scaffolding"]) false =
      Except.ok (setFS fsA (cwd ++ ["scaffolding"]) FsNode.dir) := by
  unfold mkdirp
  rw [if_neg (by simp)]
  have hfold : (ancestorsOf (cwd ++ ["scaffolding"])).dropLast.foldlM ensureDir fsA =
      Except.ok fsA := by
    apply ensureDir_fold_id
    intro q hq
    rw [ancestorsOf_append_one, List.dropLast_concat] at hq
    unfold cwdChainOk at hchain
    rw [List.all_eq_true] at hchain
    simpa using hchain q hq
  rw [hfold, exbind_ok, hnone]

theorem cwdChainOk_rmtree (fs : FsMap) (cwd : FsPath)
    (h : cwdChainOk fs cwd = true) :
    cwdChainOk (rmtreeFS fs (cwd ++ ["scaffolding"])) cwd = true := by
  unfold cwdChainOk at h ⊢
  rw [List.all_eq_true] at h ⊢
  intro q hq
  rw [lookupFS_rmtree_not_under fs _ q (not_root_pre_of_anc cwd q hq)]
  exact h q hq

theorem root_self_pre (cwd : FsPath) :
    (cwd ++ ["scaffolding"]).isPrefixOf (cwd ++ ["scaffolding"]) = true := by
  simp [List.isPrefixOf_iff_prefix]

theorem cwdChainOk_set_root (cwd : FsPath) (fsA : FsMap) (n : FsNode)
    (h : cwdChainOk fsA cwd = true) :
    cwdChainOk (setFS fsA (cwd ++ ["scaffolding"]) n) cwd = true := by
  unfold cwdChainOk at h ⊢
  rw [List.all_eq_true] at h ⊢
  intro q hq
  have hne : q ≠ cwd ++ ["scaffolding"] := by
    intro hc
    have h2 := not_root_pre_of_anc cwd q hq
    rw [hc, root_self_pre cwd] at h2
    exact Bool.noConfusion h2
  rw [lookupFS_set_ne fsA _ q n hne]
  exact h q hq

/-- Claim C5: on a well-formed filesystem whose working directory exists,
materializing a confined manifest twice in a row converges — the second
run removes the tree it created and rebuilds exactly the same state. -/
theorem c5_materialize_idempotent (cwd : FsPath) (fs0 fs1 : FsMap)
    (items : List PyVal)
    (hconf : items.all confinedItem = true)
    (hchain : cwdChainOk fs0 cwd = true)
    (hwf : wfFS fs0 = true)
    (h1 : create_scaffolding_structure cwd fs0 (PyVal.list items) = Except.ok fs1) :
    create_scaffolding_structure cwd fs1 (PyVal.list items) = Except.ok fs1 := by
  have hR : resolveStr cwd "scaffolding" = cwd ++ ["scaffolding"] := rfl
  unfold create_scaffolding_structure at h1
  rw [hR] at h1
  dsimp only at h1
  have hchainA : cwdChainOk (rmtreeFS fs0 (cwd ++ ["scaffolding"])) cwd = true :=
    cwdChainOk_rmtree fs0 cwd hchain
  have hnoneA : lookupFS (rmtreeFS fs0 (cwd ++ ["scaffolding"]))
      (cwd ++ ["scaffolding"]) = none :=
    lookupFS_rmtree_under fs0 _ _ (root_self_pre cwd)
  have h1' : items.foldlM (applyItem cwd "scaffolding")
      (setFS (rmtreeFS fs0 (cwd ++ ["scaffolding"])) (cwd ++ ["scaffolding"])
        FsNode.dir) = Except.ok fs1 := by
    cases hre : lookupFS fs0 (cwd ++ ["scaffolding"]) with
    | some n =>
      cases n with
      | file c =>
        rw [hre] at h1
        exact Except.noConfusion h1
      | dir =>
        rw [hre] at h1
        dsimp only at h1
        rw [mkdirp_root_fresh cwd _ hchainA hnoneA] at h1
        dsimp only [pyLen, pyIter] at h1
        exact h1
    | none =>
      rw [hre] at h1
      dsimp only at h1
      have hid : rmtreeFS fs0 (cwd ++ ["scaffolding"]) = fs0 :=
        rmtree_wf_none fs0 _ (by simp) hwf hre
      rw [← hid] at h1
      rw [mkdirp_root_fresh cwd _ hchainA hnoneA] at h1
      dsimp only [pyLen, pyIter] at h1
      exact h1
  have hchainY : cwdChainOk (setFS (rmtreeFS fs0 (cwd ++ ["scaffolding"]))
      (cwd ++ ["scaffolding"]) FsNode.dir) cwd = true :=
    cwdChainOk_set_root cwd _ _ hchainA
  have hinv1 : MatInv cwd
      (setFS (rmtreeFS fs0 (cwd ++ ["scaffolding"])) (cwd ++ ["scaffolding"])
        FsNode.dir) fs1 :=
    applyItems_fold_matInv cwd items _ _ fs1 hconf h1'
      ⟨rfl, lookupFS_set_self _ _ _, hchainY⟩
  have hA2 : rmtreeFS fs1 (cwd ++ ["scaffolding"]) =
      rmtreeFS fs0 (cwd ++ ["scaffolding"]) := by
    rw [hinv1.1, rmtree_set_under _ _ _ _ (root_self_pre cwd), rmtree_idem]
  unfold create_scaffolding_structure
  rw [hR]
  dsimp only
  rw [hinv1.2.1]
  dsimp only
  rw [hA2, mkdirp_root_fresh cwd _ hchainA hnoneA]
  dsimp only [pyLen, pyIter]
  exact h1'

/-- Witness for C5: re-materializing `[goodItem]` over its own output is a
fixed point. -/
theorem c5_materialize_idempotent_witness :
    create_scaffolding_structure [] fsHappyOut (PyVal.list [goodItem]) =
      Except.ok fsHappyOut :=
  c5_materialize_idempotent [] [] fsHappyOut [goodItem] rfl rfl rfl rfl

theorem outside_unchanged_from_fold (cwd : FsPath) (items : List PyVal)
    (fsA fs1 : FsMap)
    (hconf : items.all confinedItem = true)
    (hchainA : cwdChainOk fsA cwd = true)
    (hfold : items.foldlM (applyItem cwd "scaffolding")
      (setFS fsA (cwd ++ ["scaffolding"]) FsNode.dir) = Except.ok fs1) :
    ∀ p : FsPath, (cwd ++ ["scaffolding"]).isPrefixOf p = false →
      lookupFS fs1 p = lookupFS fsA p := by
  intro p hp
  have hinv1 : MatInv cwd (setFS fsA (cwd ++ ["scaffolding"]) FsNode.dir) fs1 :=
    applyItems_fold_matInv cwd items _ _ fs1 hconf hfold
      ⟨rfl, lookupFS_set_self _ _ _, cwdChainOk_set_root cwd fsA _ hchainA⟩
  have h2 : lookupFS fs1 p = lookupFS (rmtreeFS fs1 (cwd ++ ["scaffolding"])) p :=
    (lookupFS_rmtree_not_under fs1 _ p hp).symm
  rw [h2, hinv1.1, rmtree_set_under _ _ _ _ (root_self_pre cwd)]
  exact lookupFS_rmtree_not_under fsA _ p hp

/-- Claim C10, amended: every call site materializes with the default
`output_dir = "scaffolding"`; provided every item's `full_path` is
relative and `".."`-free (absolute paths must be excluded too), the
filesystem outside `cwd/scaffolding` is untouched by materialization. -/
theorem c10_confined_to_scaffolding (cwd : FsPath) (fs0 fs1 : FsMap)
    (items : List PyVal)
    (hconf : items.all confinedItem = true)
    (hchain : cwdChainOk fs0 cwd = true)
    (h1 : create_scaffolding_structure cwd fs0 (PyVal.list items) = Except.ok fs1) :
    ∀ p : FsPath, (cwd ++ ["scaffolding"]).isPrefixOf p = false →
      lookupFS fs1 p = lookupFS fs0 p := by
  intro p hp
  have hR : resolveStr cwd "scaffolding" = cwd ++ ["scaffolding"] := rfl
  unfold create_scaffolding_structure at h1
  rw [hR] at h1
  dsimp only at h1
  cases hre : lookupFS fs0 (cwd ++ ["scaffolding"]) with
  | some n =>
    cases n with
    | file c =>
      rw [hre] at h1
      exact Except.noConfusion h1
    | dir =>
      rw [hre] at h1
      dsimp only at h1
      have hchainA : cwdChainOk (rmtreeFS fs0 (cwd ++ ["scaffolding"])) cwd = true :=
        cwdChainOk_rmtree fs0 cwd hchain
      have hnoneA : lookupFS (rmtreeFS fs0 (cwd ++ ["scaffolding"]))
          (cwd ++ ["scaffolding"]) = none :=
        lookupFS_rmtree_under fs0 _ _ (root_self_pre cwd)
      rw [mkdirp_root_fresh cwd _ hchainA hnoneA] at h1
      dsimp only [pyLen, pyIter] at h1
      rw [outside_unchanged_from_fold cwd items _ fs1 hconf hchainA h1 p hp]
      exact lookupFS_rmtree_not_under fs0 _ p hp
  | none =>
    rw [hre] at h1
    dsimp only at h1
    rw [mkdirp_root_fresh cwd fs0 hchain hre] at h1
    dsimp only [pyLen, pyIter] at h1
    exact outside_unchanged_from_fold cwd items fs0 fs1 hconf hchain h1 p hp

/-- Witness for the amended C10 at a concrete run and outside path. -/
theorem c10_confined_to_scaffolding_witness :
    lookupFS fsHappyOut ["etc"] = lookupFS ([] : FsMap) ["etc"] :=
  c10_confined_to_scaffolding [] [] fsHappyOut [goodItem] rfl rfl rfl ["etc"] rfl

/-- Claim C1, amended: materialization never rejects a parent-escaping
entry; the `".."` segments are resolved at write time, so the single-item
manifest `../../etc/passwd` (for any metadata strings) materializes
successfully and places its placeholder file outside the output root. -/
theorem c1_escape_written (d e : String) :
    ∃ fs1, create_scaffolding_structure cwdHome fsHome
        (PyVal.list [PyVal.dict [("full_path", PyVal.str "../../etc/passwd"),
          ("type", PyVal.str "file"), ("description", PyVal.str d),
          ("expected_content", PyVal.str e)]]) = Except.ok fs1 ∧
      lookupFS fs1 ["home", "etc", "passwd"] =
        some (FsNode.file (("" ++ ("# Purpose: " ++ d ++ "\n")) ++
          ("# Expected content type: " ++ e ++ "\n"))) ∧
      (["home", "user", "scaffolding"] : FsPath).isPrefixOf
        ["home", "etc", "passwd"] = false := by
  refine ⟨_, rfl, rfl, by decide⟩

/-! ## Kind stability: materializer steps never silently change a
directory into a file or vice versa -/

theorem asPathArg_str (fpv : PyVal) (fp : String)
    (h : asPathArg fpv = Except.ok fp) : fpv = PyVal.str fp := by
  unfold asPathArg at h
  cases fpv with
  | str s =>
    injection h with h2
    rw [h2]
  | pynull => exact Except.noConfusion h
  | pybool b => exact Except.noConfusion h
  | num n => exact Except.noConfusion h
  | list xs => exact Except.noConfusion h
  | dict kvs => exact Except.noConfusion h

theorem ensureDir_stable (st st' : FsMap) (q : FsPath)
    (h : ensureDir st q = Except.ok st') :
    (∀ p, lookupFS st p = some FsNode.dir → lookupFS st' p = some FsNode.dir) ∧
    (∀ p c, lookupFS st p = some (FsNode.file c) →
      ∃ c2, lookupFS st' p = some (FsNode.file c2)) := by
  cases ensureDir_ok_cases st st' q h with
  | inl hc =>
    rw [hc.2]
    exact ⟨fun p hp => hp, fun p c hp => ⟨c, hp⟩⟩
  | inr hc =>
    obtain ⟨hnone, hset⟩ := hc
    rw [hset]
    constructor
    · intro p hp
      have hne : p ≠ q := by
        intro he
        rw [he, hnone] at hp
        exact Option.noConfusion hp
      rw [lookupFS_set_ne st q p _ hne]
      exact hp
    · intro p c hp
      have hne : p ≠ q := by
        intro he
        rw [he, hnone] at hp
        exact Option.noConfusion hp
      rw [lookupFS_set_ne st q p _ hne]
      exact ⟨c, hp⟩

theorem ensureDir_fold_stable (qs : List FsPath) :
    ∀ st st', qs.foldlM ensureDir st = Except.ok st' →
    (∀ p, lookupFS st p = some FsNode.dir → lookupFS st' p = some FsNode.dir) ∧
    (∀ p c, lookupFS st p = some (FsNode.file c) →
      ∃ c2, lookupFS st' p = some (FsNode.file c2)) := by
  induction qs with
  | nil =>
    intro st st' hf
    injection hf with h
    rw [← h]
    exact ⟨fun p hp => hp, fun p c hp => ⟨c, hp⟩⟩
  | cons q rest ih =>
    intro st st' hf
    rw [List.foldlM_cons] at hf
    cases he : ensureDir st q with
    | error e =>
      rw [he] at hf
      exact Except.noConfusion hf
    | ok st1 =>
      rw [he, exbind_ok] at hf
      have h1 := ensureDir_stable st st1 q he
      have h2 := ih st1 st' hf
      constructor
      · exact fun p hp => h2.1 p (h1.1 p hp)
      · intro p c hp
        obtain ⟨c2, hc2⟩ := h1.2 p c hp
        exact h2.2 p c2 hc2

theorem mkdirp_stable (st st' : FsMap) (q : FsPath) (ex : Bool)
    (h : mkdirp st q ex = Except.ok st') :
    (∀ p, lookupFS st p = some FsNode.dir → lookupFS st' p = some FsNode.dir) ∧
    (∀ p c, lookupFS st p = some (FsNode.file c) →
      ∃ c2, lookupFS st' p = some (FsNode.file c2)) := by
  unfold mkdirp at h
  by_cases hq : q = []
  · rw [if_pos hq] at h
    injection h with h2
    rw [← h2]
    exact ⟨fun p hp => hp, fun p c hp => ⟨c, hp⟩⟩
  · rw [if_neg hq] at h
    cases hf : (ancestorsOf q).dropLast.foldlM ensureDir st with
    | error e =>
      rw [hf] at h
      exact Except.noConfusion h
    | ok st1 =>
      rw [hf, exbind_ok] at h
      have hst1 := ensureDir_fold_stable _ st st1 hf
      cases hl : lookupFS st1 q with
      | none =>
        rw [hl] at h
        injection h with h2
        rw [← h2]
        constructor
        · intro p hp
          have hd := hst1.1 p hp
          have hne : p ≠ q := by
            intro he
            rw [he, hl] at hd
            exact Option.noConfusion hd
          rw [lookupFS_set_ne st1 q p _ hne]
          exact hd
        · intro p c hp
          obtain ⟨c2, hc2⟩ := hst1.2 p c hp
          have hne : p ≠ q := by
            intro he
            rw [he, hl] at hc2
            exact Option.noConfusion hc2
          rw [lookupFS_set_ne st1 q p _ hne]
          exact ⟨c2, hc2⟩
      | some n =>
        cases n with
        | dir =>
          rw [hl] at h
          cases ex with
          | true =>
            injection h with h2
            rw [← h2]
            exact hst1
          | false => exact Except.noConfusion h
        | file c =>
          rw [hl] at h
          exact Except.noConfusion h

theorem mkdirp_post (st st' : FsMap) (q : FsPath) (ex : Bool)
    (h : mkdirp st q ex = Except.ok st') : dirExistsFS st' q := by
  unfold mkdirp at h
  by_cases hq : q = []
  · exact Or.inl hq
  · rw [if_neg hq] at h
    cases hf : (ancestorsOf q).dropLast.foldlM ensureDir st with
    | error e =>
      rw [hf] at h
      exact Except.noConfusion h
    | ok st1 =>
      rw [hf, exbind_ok] at h
      cases hl : lookupFS st1 q with
      | none =>
        rw [hl] at h
        injection h with h2
        rw [← h2]
        exact Or.inr (lookupFS_set_self st1 q FsNode.dir)
      | some n =>
        cases n with
        | dir =>
          rw [hl] at h
          cases ex with
          | true =>
            injection h with h2
            rw [← h2]
            exact Or.inr hl
          | false => exact Except.noConfusion h
        | file c =>
          rw [hl] at h
          exact Except.noConfusion h

theorem setFile_stable (st : FsMap) (q : FsPath) (c : String)
    (hnotdir : lookupFS st q ≠ some FsNode.dir) :
    (∀ p, lookupFS st p = some FsNode.dir →
      lookupFS (setFS st q (FsNode.file c)) p = some FsNode.dir) ∧
    (∀ p c0, lookupFS st p = some (FsNode.file c0) →
      ∃ c2, lookupFS (setFS st q (FsNode.file c)) p = some (FsNode.file c2)) := by
  constructor
  · intro p hp
    have hne : p ≠ q := by
      intro he
      rw [he] at hp
      exact hnotdir hp
    rw [lookupFS_set_ne st q p _ hne]
    exact hp
  · intro p c0 hp
    by_cases hne : p = q
    · rw [hne, lookupFS_set_self]
      exact ⟨c, rfl⟩
    · rw [lookupFS_set_ne st q p _ hne]
      exact ⟨c0, hp⟩

theorem applyItem_kind (cwd : FsPath) (st st' : FsMap) (item : PyVal)
    (hok : applyItem cwd "scaffolding" st item = Except.ok st') :
    ((∀ p, lookupFS st p = some FsNode.dir → lookupFS st' p = some FsNode.dir) ∧
     (∀ p c, lookupFS st p = some (FsNode.file c) →
       ∃ c2, lookupFS st' p = some (FsNode.file c2))) ∧
    (∃ fp tyv, pySubscr item "full_path" = Except.ok (PyVal.str fp) ∧
      pySubscr item "type" = Except.ok tyv ∧
      ((pyIsStr tyv "directory" = true ∧
        dirExistsFS st' (resolveStr cwd (osJoin "scaffolding" fp))) ∨
       (pyIsStr tyv "directory" = false ∧
        ∃ c, lookupFS st' (resolveStr cwd (osJoin "scaffolding" fp)) =
          some (FsNode.file c)))) := by
  unfold applyItem at hok
  cases h1 : pySubscr item "full_path" with
  | error m => rw [h1] at hok; exact Except.noConfusion hok
  | ok fpv =>
    rw [h1] at hok
    dsimp only at hok
    cases h2 : asPathArg fpv with
    | error m => rw [h2] at hok; exact Except.noConfusion hok
    | ok fp =>
      rw [h2] at hok
      dsimp only at hok
      have hfpv : fpv = PyVal.str fp := asPathArg_str fpv fp h2
      cases h3 : mkdirp st (resolveStr cwd (osDirname (osJoin "scaffolding" fp))) true with
      | error e => rw [h3] at hok; exact Except.noConfusion hok
      | ok st1 =>
        rw [h3] at hok
        dsimp only at hok
        have hs1 := mkdirp_stable st st1 _ true h3
        cases h4 : pySubscr item "type" with
        | error m => rw [h4] at hok; exact Except.noConfusion hok
        | ok tyv =>
          rw [h4] at hok
          dsimp only at hok
          by_cases h5 : pyIsStr tyv "directory" = true
          · rw [if_pos h5] at hok
            have hs2 := mkdirp_stable st1 st' _ true hok
            refine ⟨⟨?_, ?_⟩, fp, tyv, ?_, rfl, Or.inl ⟨h5, ?_⟩⟩
            · exact fun p hp => hs2.1 p (hs1.1 p hp)
            · intro p c hp
              obtain ⟨c2, hc2⟩ := hs1.2 p c hp
              exact hs2.2 p c2 hc2
            · rw [hfpv]
            · exact mkdirp_post st1 st' _ true hok
          · rw [if_neg h5] at hok
            cases h6 : writeNewFile st1 (resolveStr cwd (osJoin "scaffolding" fp)) "" with
            | error e => rw [h6] at hok; exact Except.noConfusion hok
            | ok st2 =>
              rw [h6] at hok
              dsimp only at hok
              obtain ⟨hset2, hnotdir⟩ := writeNewFile_ok st1 st2 _ "" h6
              have hs2 := setFile_stable st1 _ "" hnotdir
              cases h7 : pySubscr item "description" with
              | error m => rw [h7] at hok; exact Except.noConfusion hok
              | ok dv =>
                rw [h7] at hok
                dsimp only at hok
                cases h8 : appendFile st2 (resolveStr cwd (osJoin "scaffolding" fp))
                    ("# Purpose: " ++ pyStrOf dv ++ "\n") with
                | error e => rw [h8] at hok; exact Except.noConfusion hok
                | ok st3 =>
                  rw [h8] at hok
                  dsimp only at hok
                  obtain ⟨c0, hl3, hset3⟩ := appendFile_ok st2 st3 _ _ h8
                  have hnotdir3 : lookupFS st2
                      (resolveStr cwd (osJoin "scaffolding" fp)) ≠
                        some FsNode.dir := by
                    rw [hl3]
                    simp
                  have hs3 := setFile_stable st2 _ (c0 ++ ("# Purpose: " ++ pyStrOf dv ++ "\n")) hnotdir3
                  cases h9 : pySubscr item "expected_content" with
                  | error m => rw [h9] at hok; exact Except.noConfusion hok
                  | ok ev =>
                    rw [h9] at hok
                    dsimp only at hok
                    obtain ⟨c1, hl4, hset4⟩ := appendFile_ok st3 st' _ _ hok
                    have hnotdir4 : lookupFS st3
                        (resolveStr cwd (osJoin "scaffolding" fp)) ≠
                          some FsNode.dir := by
                      rw [hl4]
                      simp
                    have hs4 := setFile_stable st3 _
                      (c1 ++ ("# Expected content type: " ++ pyStrOf ev ++ "\n")) hnotdir4
                    refine ⟨⟨?_, ?_⟩, fp, tyv, ?_, rfl, Or.inr ⟨by
                      cases hb : pyIsStr tyv "directory"
                      · rfl
                      · exact absurd hb h5,
                      ⟨c1 ++ ("# Expected content type: " ++ pyStrOf ev ++ "
"), ?_⟩⟩⟩
                    · intro p hp
                      rw [hset4]
                      exact (hs4.1 p (by rw [← hset3] at *; exact (by
                        rw [hset3]
                        exact hs3.1 p (by rw [hset2]; exact hs2.1 p (hs1.1 p hp)))))
                    · intro p c hp
                      obtain ⟨c2, hc2⟩ := hs1.2 p c hp
                      have hc3 : ∃ c3, lookupFS st2 p = some (FsNode.file c3) := by
                        rw [hset2]
                        exact hs2.2 p c2 hc2
                      obtain ⟨c3, hc3⟩ := hc3
                      have hc4 : ∃ c4, lookupFS st3 p = some (FsNode.file c4) := by
                        rw [hset3]
                        exact hs3.2 p c3 hc3
                      obtain ⟨c4, hc4⟩ := hc4
                      rw [hset4]
                      exact hs4.2 p c4 hc4
                    · rw [hfpv]
                    · rw [hset4]
                      exact lookupFS_set_self st3 _ _

theorem applyItems_fold_stable (cwd : FsPath) (items : List PyVal) :
    ∀ st st', items.foldlM (applyItem cwd "scaffolding") st = Except.ok st' →
    (∀ p, lookupFS st p = some FsNode.dir → lookupFS st' p = some FsNode.dir) ∧
    (∀ p c, lookupFS st p = some (FsNode.file c) →
      ∃ c2, lookupFS st' p = some (FsNode.file c2)) := by
  induction items with
  | nil =>
    intro st st' hf
    injection hf with h
    rw [← h]
    exact ⟨fun p hp => hp, fun p c hp => ⟨c, hp⟩⟩
  | cons v rest ih =>
    intro st st' hf
    rw [List.foldlM_cons] at hf
    cases he : applyItem cwd "scaffolding" st v with
    | error e =>
      rw [he] at hf
      exact Except.noConfusion hf
    | ok st1 =>
      rw [he, exbind_ok] at hf
      have h1 := (applyItem_kind cwd st st1 v he).1
      have h2 := ih st1 st' hf
      constructor
      · exact fun p hp => h2.1 p (h1.1 p hp)
      · intro p c hp
        obtain ⟨c2, hc2⟩ := h1.2 p c hp
        exact h2.2 p c2 hc2

theorem applyItems_fold_post (cwd : FsPath) (items : List PyVal) :
    ∀ st st', items.foldlM (applyItem cwd "scaffolding") st = Except.ok st' →
    ∀ item ∈ items, ∃ fp tyv,
      pySubscr item "full_path" = Except.ok (PyVal.str fp) ∧
      pySubscr item "type" = Except.ok tyv ∧
      ((pyIsStr tyv "directory" = true ∧
        dirExistsFS st' (resolveStr cwd (osJoin "scaffolding" fp))) ∨
       (pyIsStr tyv "directory" = false ∧
        ∃ c, lookupFS st' (resolveStr cwd (osJoin "scaffolding" fp)) =
          some (FsNode.file c))) := by
  induction items with
  | nil =>
    intro st st' _ item hmem
    exact absurd hmem (List.not_mem_nil item)
  | cons v rest ih =>
    intro st st' hf item hmem
    rw [List.foldlM_cons] at hf
    cases he : applyItem cwd "scaffolding" st v with
    | error e =>
      rw [he] at hf
      exact Except.noConfusion hf
    | ok st1 =>
      rw [he, exbind_ok] at hf
      cases List.mem_cons.mp hmem with
      | inl hv =>
        subst hv
        obtain ⟨hstab1, fp, tyv, ha, hb, hpost⟩ := applyItem_kind cwd st st1 item he
        have hstabR := applyItems_fold_stable cwd rest st1 st' hf
        refine ⟨fp, tyv, ha, hb, ?_⟩
        cases hpost with
        | inl hcase =>
          refine Or.inl ⟨hcase.1, ?_⟩
          cases hcase.2 with
          | inl hnil => exact Or.inl hnil
          | inr hdir => exact Or.inr (hstabR.1 _ hdir)
        | inr hcase =>
          obtain ⟨hty, c, hc⟩ := hcase
          obtain ⟨c2, hc2⟩ := hstabR.2 _ c hc
          exact Or.inr ⟨hty, c2, hc2⟩
      | inr hrest => exact ih st1 st' hf item hrest

/-- Claim C6, amended: after a successful materialization every item's
`output_root / full_path` exists with the kind selected by the exact
comparison `type == "directory"` — a directory when the type is the
literal `"directory"`, a placeholder file for every other value
(synonyms like `"dir"` included). -/
theorem c6_declared_kind_postcondition (cwd : FsPath) (fs0 fs1 : FsMap)
    (items : List PyVal)
    (h1 : create_scaffolding_structure cwd fs0 (PyVal.list items) = Except.ok fs1) :
    ∀ item ∈ items, ∃ fp tyv,
      pySubscr item "full_path" = Except.ok (PyVal.str fp) ∧
      pySubscr item "type" = Except.ok tyv ∧
      ((pyIsStr tyv "directory" = true ∧
        dirExistsFS fs1 (resolveStr cwd (osJoin "scaffolding" fp))) ∨
       (pyIsStr tyv "directory" = false ∧
        ∃ c, lookupFS fs1 (resolveStr cwd (osJoin "scaffolding" fp)) =
          some (FsNode.file c))) := by
  unfold create_scaffolding_structure at h1
  dsimp only at h1
  cases hre : lookupFS fs0 (resolveStr cwd "scaffolding") with
  | some n =>
    cases n with
    | file c =>
      rw [hre] at h1
      exact Except.noConfusion h1
    | dir =>
      rw [hre] at h1
      dsimp only at h1
      cases hmk : mkdirp (rmtreeFS fs0 (resolveStr cwd "scaffolding"))
          (resolveStr cwd "scaffolding") false with
      | error e =>
        rw [hmk] at h1
        exact Except.noConfusion h1
      | ok fsB =>
        rw [hmk] at h1
        dsimp only [pyLen, pyIter] at h1
        exact applyItems_fold_post cwd items fsB fs1 h1
  | none =>
    rw [hre] at h1
    dsimp only at h1
    cases hmk : mkdirp fs0 (resolveStr cwd "scaffolding") false with
    | error e =>
      rw [hmk] at h1
      exact Except.noConfusion h1
    | ok fsB =>
      rw [hmk] at h1
      dsimp only [pyLen, pyIter] at h1
      exact applyItems_fold_post cwd items fsB fs1 h1

/-- Witness for the amended C6: the `"dir"`-typed item ends up as a file
at its target path. -/
theorem c6_declared_kind_postcondition_witness :
    ∃ fp tyv,
      pySubscr dirSynItem "full_path" = Except.ok (PyVal.str fp) ∧
      pySubscr dirSynItem "type" = Except.ok tyv ∧
      ((pyIsStr tyv "directory" = true ∧
        dirExistsFS [(["scaffolding"], FsNode.dir),
          (["scaffolding", "d1"],
           FsNode.file "# Purpose: d\n# Expected content type: e\n")]
          (resolveStr [] (osJoin "scaffolding" fp))) ∨
       (pyIsStr tyv "directory" = false ∧
        ∃ c, lookupFS [(["scaffolding"], FsNode.dir),
            (["scaffolding", "d1"],
             FsNode.file "# Purpose: d\n# Expected content type: e\n")]
          (resolveStr [] (osJoin "scaffolding" fp)) = some (FsNode.file c))) :=
  c6_declared_kind_postcondition [] []
    [(["scaffolding"], FsNode.dir),
     (["scaffolding", "d1"],
      FsNode.file "# Purpose: d\n# Expected content type: e\n")]
    [dirSynItem] rfl dirSynItem (List.mem_cons_self _ _)
